import Mathlib

/-!
Verification development for the `greenpass` crate (`src/lib.rs`): a shallow
embedding of the decode pipeline from the parsed CBOR envelope down to the
typed entities (`HealthCert`, `GreenPass`, `Recovery`, `Test`, `Vaccine`),
together with theorems about the schema-extraction discipline.

Modelling conventions:
* `serde_cbor::Value` becomes the inductive `GP.Value`; the `i128` payload of
  `Value::Integer` becomes `Int` (all CBOR-representable integers fit).
* `BTreeMap<String, Value>` becomes `GP.StrMap := List (String × Value)`.
  Maps produced by the source always have pairwise-distinct keys (they come
  from `BTreeMap`s); on such lists `sremove` (remove every occurrence of the
  key) coincides with `BTreeMap::remove` (remove the unique occurrence).
* Fallible Rust code returning `Result<T, Error>` becomes `Except Error T`;
  functions that mutate the map in place additionally return the new map.
* `chrono`'s panicking `Utc.timestamp` is modelled by an `Option`; the `none`
  case is propagated as the explicit `Outcome.panic` marker.
-/

namespace GP

/-- Shallow embedding of `serde_cbor::Value`.  `float` is kept abstract: no
decoder in the crate ever accepts a float, so its payload is irrelevant. -/
inductive Value where
  | null : Value
  | bool : Bool → Value
  | integer : Int → Value
  | float : Value
  | bytes : List Nat → Value
  | text : String → Value
  | array : List Value → Value
  | map : List (Value × Value) → Value
  | tag : Nat → Value → Value

/-- String-keyed map (`BTreeMap<String, Value>` in the source). -/
abbrev StrMap := List (String × Value)

/-- Integer-keyed claims map (`BTreeMap<isize, Value>` in the source). -/
abbrev IntMap := List (Int × Value)

/-- Embedding of the crate's `Error` enum (`lib.rs` lines 40-74).  The
`#[from]` conversion variants keep no payload beyond what the claims need. -/
inductive Error where
  | invalidBase45 : Error
  | ioError : Error
  | invalidKey : String → Error
  | invalidFormatFor : String → Error
  | malformedCBOR : Error
  | malformedCWT : Error
  | malformedDate : String → Error
  | malformedStringMap : Error
  | missingHCID : Error
  | missingKey : String → Error
  | spuriousData : StrMap → Error

/-- First-occurrence lookup in a string-keyed association list
(`BTreeMap::remove`'s "is the key present" part). -/
def slookup : StrMap → String → Option Value
  | [], _ => none
  | (k', v) :: rest, k => if k' = k then some v else slookup rest k

/-- Removal of a key from a string-keyed association list.  Removes every
occurrence; on the duplicate-free lists produced by the source this is
exactly `BTreeMap::remove`. -/
def sremove : StrMap → String → StrMap
  | [], _ => []
  | (k', v) :: rest, k =>
    if k' = k then sremove rest k else (k', v) :: sremove rest k

/-- First-occurrence lookup in the integer-keyed claims map. -/
def ilookup : IntMap → Int → Option Value
  | [], _ => none
  | (k', v) :: rest, k => if k' = k then some v else ilookup rest k

/-- Removal of a key from the integer-keyed claims map. -/
def iremove : IntMap → Int → IntMap
  | [], _ => []
  | (k', v) :: rest, k =>
    if k' = k then iremove rest k else (k', v) :: iremove rest k

/-- `extract_key` (`lib.rs` line 114): `m.remove(k).ok_or(MissingKey(k))`.
Returns the extracted value together with the updated map. -/
def extract_key (m : StrMap) (k : String) : Except Error Value × StrMap :=
  match slookup m k with
  | some v => (.ok v, sremove m k)
  | none => (.error (.missingKey k), m)

/-- The body generated by the `gen_extract!` macro (`lib.rs` lines 85-94),
parametrised by the variant test: extract the key, then demand the variant,
reporting `InvalidFormatFor` on a type mismatch.  Note that the key has been
removed from the map even in the mismatch case. -/
def gen_extract {α : Type} (tc : Value → Option α) (m : StrMap) (k : String) :
    Except Error α × StrMap :=
  match extract_key m k with
  | (.ok v, m') =>
    match tc v with
    | some r => (.ok r, m')
    | none => (.error (.invalidFormatFor k), m')
  | (.error e, m') => (.error e, m')

/-- `gen_extract!(extract_array, Value::Array, Vec<Value>)`. -/
def extract_array : StrMap → String → Except Error (List Value) × StrMap :=
  gen_extract fun v => match v with | .array r => some r | _ => none

/-- `gen_extract!(extract_int, Value::Integer, i128)`. -/
def extract_int : StrMap → String → Except Error Int × StrMap :=
  gen_extract fun v => match v with | .integer r => some r | _ => none

/-- `gen_extract!(extract_string, Value::Text, String)`. -/
def extract_string : StrMap → String → Except Error String × StrMap :=
  gen_extract fun v => match v with | .text r => some r | _ => none

/-- `NaiveDate` of the `chrono` crate: a plain calendar date. -/
structure NDate where
  year : Nat
  month : Nat
  day : Nat
deriving DecidableEq

/-- A parsed timestamp with fixed offset (`DateTime<FixedOffset>`). -/
structure DateTimeFO where
  date : NDate
  hour : Nat
  minute : Nat
  second : Nat
  nanos : Nat
  offset_min : Int
deriving DecidableEq

/-- Numeric value of a decimal digit character. -/
def digitVal (c : Char) : Option Nat :=
  if c.isDigit then some (c.toNat - 48) else none

/-- Read exactly two decimal digits. -/
def read2 : List Char → Option (Nat × List Char)
  | a :: b :: rest =>
    match digitVal a, digitVal b with
    | some x, some y => some (x * 10 + y, rest)
    | _, _ => none
  | _ => none

/-- Read exactly four decimal digits. -/
def read4 (cs : List Char) : Option (Nat × List Char) :=
  match read2 cs with
  | some (hi, rest) =>
    match read2 rest with
    | some (lo, rest') => some (hi * 100 + lo, rest')
    | none => none
  | none => none

/-- Gregorian leap-year test. -/
def is_leap (y : Nat) : Bool :=
  (y % 4 == 0 && y % 100 != 0) || y % 400 == 0

/-- Number of days in a month. -/
def days_in_month (y m : Nat) : Nat :=
  if m = 2 then (if is_leap y then 29 else 28)
  else if m = 4 ∨ m = 6 ∨ m = 9 ∨ m = 11 then 30 else 31

/-- Modelled from chrono's `NaiveDate::parse_from_str(ds, "%F")` as used by
`extract_date`: a strict `YYYY-MM-DD` string with calendar validation. -/
def parse_naive_date (s : String) : Option NDate :=
  match read4 s.data with
  | some (y, rest) =>
    match rest with
    | '-' :: rest2 =>
      match read2 rest2 with
      | some (mo, rest3) =>
        match rest3 with
        | '-' :: rest4 =>
          match read2 rest4 with
          | some (dy, []) =>
            if 1 ≤ mo ∧ mo ≤ 12 ∧ 1 ≤ dy ∧ dy ≤ days_in_month y mo then
              some ⟨y, mo, dy⟩
            else none
          | _ => none
        | _ => none
      | none => none
    | _ => none
  | none => none

/-- Read a UTC offset: `Z`, `±HH:MM` or `±HHMM` (the union of the offset
syntaxes accepted by the three chrono format strings tried in
`extract_isodatetime`). -/
def read_offset : List Char → Option Int
  | ['Z'] => some 0
  | '+' :: rest => read_offset_hm 1 rest
  | '-' :: rest => read_offset_hm (-1) rest
  | _ => none
where
  /-- Hours/minutes part of an offset, with or without the colon. -/
  read_offset_hm (sign : Int) : List Char → Option Int
    | [h1, h2, ':', m1, m2] =>
      match read2 [h1, h2], read2 [m1, m2] with
      | some (hh, _), some (mm, _) =>
        if hh ≤ 23 ∧ mm ≤ 59 then some (sign * (hh * 60 + mm)) else none
      | _, _ => none
    | [h1, h2, m1, m2] =>
      match read2 [h1, h2], read2 [m1, m2] with
      | some (hh, _), some (mm, _) =>
        if hh ≤ 23 ∧ mm ≤ 59 then some (sign * (hh * 60 + mm)) else none
      | _, _ => none
    | _ => none

/-- Read an optional fractional-seconds part `.d{1,9}`, returning nanoseconds
and the remaining characters. -/
def read_frac : List Char → Nat × List Char
  | '.' :: rest => go rest 0 0
  | cs => (0, cs)
where
  /-- Accumulate up to nine fractional digits. -/
  go : List Char → Nat → Nat → Nat × List Char
    | [], acc, n => (acc * 10 ^ (9 - n), [])
    | c :: cs, acc, n =>
      match digitVal c with
      | some d => if n < 9 then go cs (acc * 10 + d) (n + 1) else go cs acc n
      | none => (acc * 10 ^ (9 - n), c :: cs)

/-- Modelled from the chrono parses attempted by `extract_isodatetime`
(`lib.rs` lines 103-110): `%+`, then `%Y-%m-%dT%H:%M:%S%.f%#z`, then
`%Y-%m-%dT%H:%M:%S%.f%z` — together they accept
`YYYY-MM-DDTHH:MM:SS[.frac](Z|±HH:MM|±HHMM)`. -/
def parse_isodatetime (s : String) : Option DateTimeFO :=
  match read4 s.data with
  | some (y, '-' :: r1) =>
    match read2 r1 with
    | some (mo, '-' :: r2) =>
      match read2 r2 with
      | some (dy, 'T' :: r3) =>
        match read2 r3 with
        | some (hh, ':' :: r4) =>
          match read2 r4 with
          | some (mi, ':' :: r5) =>
            match read2 r5 with
            | some (ss, r6) =>
              let (ns, r7) := read_frac r6
              match read_offset r7 with
              | some off =>
                if 1 ≤ mo ∧ mo ≤ 12 ∧ 1 ≤ dy ∧ dy ≤ days_in_month y mo ∧
                    hh ≤ 23 ∧ mi ≤ 59 ∧ ss ≤ 59 then
                  some ⟨⟨y, mo, dy⟩, hh, mi, ss, ns, off⟩
                else none
              | none => none
            | none => none
          | _ => none
        | _ => none
      | _ => none
    | _ => none
  | _ => none

/-- `extract_date` (`lib.rs` lines 98-101): extract a string and parse it as a
bare date, turning a parse failure into `MalformedDate`. -/
def extract_date (m : StrMap) (k : String) : Except Error NDate × StrMap :=
  match extract_string m k with
  | (.ok ds, m') =>
    match parse_naive_date ds with
    | some d => (.ok d, m')
    | none => (.error (.malformedDate ds), m')
  | (.error e, m') => (.error e, m')

/-- `extract_isodatetime` (`lib.rs` lines 103-110). -/
def extract_isodatetime (m : StrMap) (k : String) :
    Except Error DateTimeFO × StrMap :=
  match extract_string m k with
  | (.ok ds, m') =>
    match parse_isodatetime ds with
    | some d => (.ok d, m')
    | none => (.error (.malformedDate ds), m')
  | (.error e, m') => (.error e, m')

/-- Insert-or-replace into a string-keyed association list; this is
`BTreeMap::insert` as performed by `collect()` in `to_strmap` (later
duplicates overwrite earlier ones).  The list keeps insertion order rather
than `BTreeMap`'s key order: no decoder observes the iteration order (all
access is by key), so the two representations are interchangeable. -/
def insert_str (k : String) (v : Value) : StrMap → StrMap
  | [] => [(k, v)]
  | (k', v') :: rest =>
    if k = k' then (k, v) :: rest
    else (k', v') :: insert_str k v rest

/-- The fallible collect inside `to_strmap`: fold the CBOR map entries into a
string-keyed map, failing at the first non-text key. -/
def to_strmap_entries : List (Value × Value) → StrMap → Except Error StrMap
  | [], acc => .ok acc
  | (key, v) :: rest, acc =>
    match key with
    | .text s => to_strmap_entries rest (insert_str s v acc)
    | _ => .error .malformedStringMap

/-- `to_strmap` (`lib.rs` lines 432-443): coerce a generic CBOR map into a
string-keyed map, or fail with `InvalidFormatFor(desc)` if the value is not a
map at all. -/
def to_strmap (desc : String) (v : Value) : Except Error StrMap :=
  match v with
  | .map kvs => to_strmap_entries kvs []
  | _ => .error (.invalidFormatFor desc)

/-- `extract_string_map` (`lib.rs` lines 120-122):
`to_strmap(k, extract_key(m, k)?)`. -/
def extract_string_map (m : StrMap) (k : String) :
    Except Error StrMap × StrMap :=
  match extract_key m k with
  | (.ok v, m') =>
    match to_strmap k v with
    | .ok sm => (.ok sm, m')
    | .error e => (.error e, m')
  | (.error e, m') => (.error e, m')

/-- `Recovery` (`lib.rs` lines 231-253). -/
structure Recovery where
  cert_id : String
  country : String
  diagnosed : NDate
  disease : String
  issuer : String
  valid_from : NDate
  valid_until : NDate
deriving DecidableEq

/-- `TestName` (`lib.rs` lines 284-291). -/
inductive TestName where
  | NAAT : String → TestName
  | RAT : String → TestName
deriving DecidableEq

/-- `Test` (`lib.rs` lines 293-322). -/
structure Test where
  cert_id : String
  collect_ts : DateTimeFO
  country : String
  disease : String
  issuer : String
  name : TestName
  result : String
  test_type : String
  testing_centre : String
deriving DecidableEq

/-- Reduction of an `i128` to `usize` by the Rust `as usize` cast: reduction
modulo `2 ^ 64` (64-bit targets). -/
def i128_to_usize (n : Int) : Nat :=
  (n.emod (2 ^ 64)).toNat

/-- `Vaccine` (`lib.rs` lines 364-396). -/
structure Vaccine where
  cert_id : String
  country : String
  date : NDate
  disease : String
  dose_number : Nat
  dose_total : Nat
  issuer : String
  market_auth : String
  product : String
  prophylaxis_kind : String
deriving DecidableEq

/-- `CertInfo` (`lib.rs` lines 124-129). -/
inductive CertInfo where
  | Recovery : GP.Recovery → CertInfo
  | Test : GP.Test → CertInfo
  | Vaccine : GP.Vaccine → CertInfo
deriving DecidableEq

/-- `GreenPass` (`lib.rs` lines 131-154). -/
structure GreenPass where
  date_of_birth : String
  surname : String
  givenname : String
  std_surname : String
  std_givenname : String
  ver : String
  entries : List CertInfo
deriving DecidableEq

/-- `HealthCert` (`lib.rs` lines 214-228).  The two timestamps are stored as
UTC epoch seconds; note the struct retains no signature metadata. -/
structure HealthCert where
  some_issuer : Option String
  created : Int
  expires : Int
  passes : List GreenPass
deriving DecidableEq

/-- `Recovery::try_from` (`lib.rs` lines 255-281): extract the seven fixed
fields in order, then demand the map be fully consumed. -/
def Recovery.tryFrom (m0 : StrMap) : Except Error Recovery :=
  match extract_string m0 "ci" with
  | (.error e, _) => .error e
  | (.ok cert_id, m1) =>
  match extract_string m1 "co" with
  | (.error e, _) => .error e
  | (.ok country, m2) =>
  match extract_date m2 "fr" with
  | (.error e, _) => .error e
  | (.ok diagnosed, m3) =>
  match extract_string m3 "tg" with
  | (.error e, _) => .error e
  | (.ok disease, m4) =>
  match extract_string m4 "is" with
  | (.error e, _) => .error e
  | (.ok issuer, m5) =>
  match extract_date m5 "df" with
  | (.error e, _) => .error e
  | (.ok valid_from, m6) =>
  match extract_date m6 "du" with
  | (.error e, _) => .error e
  | (.ok valid_until, m7) =>
  if m7.isEmpty then
    .ok { cert_id, country, diagnosed, disease, issuer, valid_from, valid_until }
  else .error (.spuriousData m7)

/-- `Test::try_from` (`lib.rs` lines 324-362).  The `TestName` selection
mirrors the `if let Ok(..)` chain: the `nm` attempt removes the key even when
its value is not text, and only then is `ma` attempted. -/
def Test.tryFrom (m0 : StrMap) : Except Error Test :=
  match extract_string m0 "ci" with
  | (.error e, _) => .error e
  | (.ok cert_id, m1) =>
  match extract_isodatetime m1 "sc" with
  | (.error e, _) => .error e
  | (.ok collect_ts, m2) =>
  match extract_string m2 "co" with
  | (.error e, _) => .error e
  | (.ok country, m3) =>
  match extract_string m3 "tg" with
  | (.error e, _) => .error e
  | (.ok disease, m4) =>
  match extract_string m4 "is" with
  | (.error e, _) => .error e
  | (.ok issuer, m5) =>
  match
    (match extract_string m5 "nm" with
     | (.ok nm, m6) => (Except.ok (TestName.NAAT nm), m6)
     | (.error _, m6) =>
       match extract_string m6 "ma" with
       | (.ok ma, m7) => (Except.ok (TestName.RAT ma), m7)
       | (.error _, m7) =>
         (Except.error (Error.missingKey "ma or nm in test"), m7))
  with
  | (.error e, _) => .error e
  | (.ok name, m8) =>
  match extract_string m8 "tr" with
  | (.error e, _) => .error e
  | (.ok result, m9) =>
  match extract_string m9 "tt" with
  | (.error e, _) => .error e
  | (.ok test_type, m10) =>
  match extract_string m10 "tc" with
  | (.error e, _) => .error e
  | (.ok testing_centre, m11) =>
  if m11.isEmpty then
    .ok { cert_id, collect_ts, country, disease, issuer, name, result,
          test_type, testing_centre }
  else .error (.spuriousData m11)

/-- `Vaccine::try_from` (`lib.rs` lines 398-430).  The two dose counts go
through the `as usize` cast; no relation between them is checked. -/
def Vaccine.tryFrom (m0 : StrMap) : Except Error Vaccine :=
  match extract_string m0 "ci" with
  | (.error e, _) => .error e
  | (.ok cert_id, m1) =>
  match extract_string m1 "co" with
  | (.error e, _) => .error e
  | (.ok country, m2) =>
  match extract_date m2 "dt" with
  | (.error e, _) => .error e
  | (.ok date, m3) =>
  match extract_string m3 "tg" with
  | (.error e, _) => .error e
  | (.ok disease, m4) =>
  match extract_int m4 "dn" with
  | (.error e, _) => .error e
  | (.ok dn, m5) =>
  match extract_int m5 "sd" with
  | (.error e, _) => .error e
  | (.ok sd, m6) =>
  match extract_string m6 "is" with
  | (.error e, _) => .error e
  | (.ok issuer, m7) =>
  match extract_string m7 "ma" with
  | (.error e, _) => .error e
  | (.ok market_auth, m8) =>
  match extract_string m8 "mp" with
  | (.error e, _) => .error e
  | (.ok product, m9) =>
  match extract_string m9 "vp" with
  | (.error e, _) => .error e
  | (.ok prophylaxis_kind, m10) =>
  if m10.isEmpty then
    .ok { cert_id, country, date, disease,
          dose_number := i128_to_usize dn, dose_total := i128_to_usize sd,
          issuer, market_auth, product, prophylaxis_kind }
  else .error (.spuriousData m10)

/-- Short-circuiting `collect::<Result<Vec<_>>>()` over a mapped iterator. -/
def collect_results {α β : Type} (f : α → Except Error β) :
    List α → Except Error (List β)
  | [] => .ok []
  | x :: xs =>
    match f x with
    | .error e => .error e
    | .ok b =>
      match collect_results f xs with
      | .error e => .error e
      | .ok bs => .ok (b :: bs)

/-- The closure mapped over the `r` array in `GreenPass::try_from`. -/
def recovery_entry (v : Value) : Except Error CertInfo :=
  match to_strmap "recovery entry" v with
  | .error e => .error e
  | .ok m =>
    match Recovery.tryFrom m with
    | .error e => .error e
    | .ok r => .ok (.Recovery r)

/-- The closure mapped over the `t` array in `GreenPass::try_from`. -/
def test_entry (v : Value) : Except Error CertInfo :=
  match to_strmap "test entry" v with
  | .error e => .error e
  | .ok m =>
    match Test.tryFrom m with
    | .error e => .error e
    | .ok t => .ok (.Test t)

/-- The closure mapped over the `v` array in `GreenPass::try_from`. -/
def vaccine_entry (v : Value) : Except Error CertInfo :=
  match to_strmap "vaccine entry" v with
  | .error e => .error e
  | .ok m =>
    match Vaccine.tryFrom m with
    | .error e => .error e
    | .ok vc => .ok (.Vaccine vc)

/-- Parsing of the recovery array into entries. -/
def recovery_entries : List Value → Except Error (List CertInfo) :=
  collect_results recovery_entry

/-- Parsing of the test array into entries. -/
def test_entries : List Value → Except Error (List CertInfo) :=
  collect_results test_entry

/-- Parsing of the vaccine array into entries. -/
def vaccine_entries : List Value → Except Error (List CertInfo) :=
  collect_results vaccine_entry

/-- The three-way `if let Ok(..) = extract_array(..)` selection in
`GreenPass::try_from` (`lib.rs` lines 163-189): try `r`, then `t`, then `v`,
each failed attempt keeping its (possibly mutated) map; if none of the three
is present as an array, fail with the `MissingKey` error naming all three. -/
def gp_entries (m : StrMap) : Except Error (List CertInfo) × StrMap :=
  match extract_array m "r" with
  | (.ok rs, m') => (recovery_entries rs, m')
  | (.error _, m') =>
    match extract_array m' "t" with
    | (.ok ts, m'') => (test_entries ts, m'')
    | (.error _, m'') =>
      match extract_array m'' "v" with
      | (.ok vs, m3) => (vaccine_entries vs, m3)
      | (.error _, m3) =>
        (.error (.missingKey "r, t or v (the actual data)"), m3)

/-- `GreenPass::try_from` (`lib.rs` lines 156-212).  Note that the final
emptiness check covers only the outer map, not the extracted `nam` map. -/
def GreenPass.tryFrom (m0 : StrMap) : Except Error GreenPass :=
  match extract_string m0 "dob" with
  | (.error e, _) => .error e
  | (.ok date_of_birth, m1) =>
  match extract_string m1 "ver" with
  | (.error e, _) => .error e
  | (.ok ver, m2) =>
  match gp_entries m2 with
  | (.error e, _) => .error e
  | (.ok entries, m3) =>
  match extract_string_map m3 "nam" with
  | (.error e, _) => .error e
  | (.ok nam0, m4) =>
  match extract_string nam0 "fn" with
  | (.error e, _) => .error e
  | (.ok surname, nam1) =>
  match extract_string nam1 "gn" with
  | (.error e, _) => .error e
  | (.ok givenname, nam2) =>
  match extract_string nam2 "fnt" with
  | (.error e, _) => .error e
  | (.ok std_surname, nam3) =>
  match extract_string nam3 "gnt" with
  | (.error e, _) => .error e
  | (.ok std_givenname, _) =>
  if m4.isEmpty then
    .ok { date_of_birth, surname, givenname, std_surname, std_givenname, ver,
          entries }
  else .error (.spuriousData m4)

/-- Outcome of running code that can return, fail with an `Error`, or panic
(the `unwrap` inside chrono's `Utc.timestamp`). -/
inductive Outcome (α : Type) where
  | ok : α → Outcome α
  | err : Error → Outcome α
  | panic : Outcome α

/-- The Rust `as i64` cast on an `i128`: two's-complement truncation to 64
bits. -/
def wrap_i64 (n : Int) : Int :=
  (n + 2 ^ 63).emod (2 ^ 64) - 2 ^ 63

/-- Day count from 1970-01-01 of a proleptic-Gregorian civil date (Howard
Hinnant's `days_from_civil`), used to express chrono's representable range. -/
def days_from_civil (y : Int) (m : Int) (d : Int) : Int :=
  let y' := if m ≤ 2 then y - 1 else y
  let era := Int.fdiv y' 400
  let yoe := y' - era * 400
  let mp := Int.emod (m + 9) 12
  let doy := Int.fdiv (153 * mp + 2) 5 + d - 1
  let doe := yoe * 365 + Int.fdiv yoe 4 - Int.fdiv yoe 100 + doy
  era * 146097 + doe - 719468

/-- Smallest epoch-second value representable by chrono's `NaiveDateTime`
(year `-262144`, the minimum `NaiveDate` year). -/
def chrono_min_ts : Int := days_from_civil (-262144) 1 1 * 86400

/-- Largest epoch-second value representable by chrono's `NaiveDateTime`
(23:59:59 of 262143-12-31, the maximum `NaiveDate`). -/
def chrono_max_ts : Int := days_from_civil 262143 12 31 * 86400 + 86399

/-- Modelled from chrono 0.4's `Utc.timestamp(secs, 0)` =
`timestamp_opt(secs, 0).unwrap()`: returns the instant (kept as epoch
seconds), or `none` — a panic of the `unwrap` — when the seconds fall outside
the `NaiveDateTime`-representable range. -/
def utc_timestamp (secs : Int) : Option Int :=
  if chrono_min_ts ≤ secs ∧ secs ≤ chrono_max_ts then some secs else none

/-- Extraction of the `hcert` claim (key `-260`) and decoding of the passes:
`lib.rs` lines 514-532. -/
def hc_stage_hcerts (some_issuer : Option String) (expires created : Int)
    (m : IntMap) : Outcome HealthCert :=
  match ilookup m (-260) with
  | none => .err (.missingKey "hcert")
  | some (.map hcmap) =>
    match collect_results (fun kv => to_strmap "hcert" kv.2) hcmap with
    | .error e => .err e
    | .ok hcerts =>
      match collect_results GreenPass.tryFrom hcerts with
      | .error e => .err e
      | .ok passes => .ok { some_issuer, created, expires, passes }
  | some _ => .err (.invalidFormatFor "hcert")

/-- Extraction of the issue timestamp (key `6`): `lib.rs` lines 502-512.
`Value::Integer(ts) => Utc.timestamp(ts as i64, 0)` — an out-of-range value
panics. -/
def hc_stage_created (some_issuer : Option String) (expires : Int)
    (m : IntMap) : Outcome HealthCert :=
  match ilookup m 6 with
  | none => .err (.missingKey "issue timestamp")
  | some (.integer ts) =>
    match utc_timestamp (wrap_i64 ts) with
    | some created => hc_stage_hcerts some_issuer expires created (iremove m 6)
    | none => .panic
  | some _ => .err (.invalidFormatFor "issue timestamp")

/-- Extraction of the expiration timestamp (key `4`): `lib.rs` lines
490-500. -/
def hc_stage_expires (some_issuer : Option String) (m : IntMap) :
    Outcome HealthCert :=
  match ilookup m 4 with
  | none => .err (.missingKey "expiration timestamp")
  | some (.integer ts) =>
    match utc_timestamp (wrap_i64 ts) with
    | some expires => hc_stage_created some_issuer expires (iremove m 4)
    | none => .panic
  | some _ => .err (.invalidFormatFor "expiration timestamp")

/-- The claims-map part of `HealthCert::try_from` (`lib.rs` lines 477-539),
starting from the decoded `RawCert` map: optional issuer (key `1`), then the
two timestamps, then the `hcert` claim. -/
def healthCertFromClaims (cert_map : IntMap) : Outcome HealthCert :=
  match ilookup cert_map 1 with
  | some (.text iss) => hc_stage_expires (some iss) (iremove cert_map 1)
  | some _ => .err (.invalidFormatFor "issuing country")
  | none => hc_stage_expires none cert_map

/-- The envelope part of `HealthCert::try_from` (`lib.rs` lines 462-539),
starting from the CBOR-decoded CWT array.  `parse_payload` stands for the
external `serde_cbor::from_slice::<RawCert>` call on the payload bytes.  A
top-level array of any length other than 4 is rejected as `MalformedCWT`;
element 2 must be a byte string; elements 0, 1 and 3 (protected header,
unprotected header, signature) are never read. -/
def healthCertFromCwt (parse_payload : List Nat → Except Error IntMap)
    (cwt : List Value) : Outcome HealthCert :=
  match cwt with
  | [_, _, payload, _] =>
    match payload with
    | .bytes bys =>
      match parse_payload bys with
      | .error e => .err e
      | .ok cert_map => healthCertFromClaims cert_map
    | _ => .err (.invalidFormatFor "root cert")
  | _ => .err .malformedCWT

/-! Basic lemmas about the association-list map operations. -/

theorem isEmpty_iff_nil (m : StrMap) : m.isEmpty = true ↔ m = [] := by
  cases m <;> simp

theorem slookup_sremove_ne (m : StrMap) (k j : String) (h : j ≠ k) :
    slookup (sremove m k) j = slookup m j := by
  induction m with
  | nil => rfl
  | cons p rest ih =>
    obtain ⟨k', v⟩ := p
    simp only [sremove, slookup]
    by_cases hk : k' = k
    · rw [if_pos hk, ih, if_neg (fun e => h (e.symm.trans hk))]
    · rw [if_neg hk]
      simp only [slookup]
      by_cases hj : k' = j
      · rw [if_pos hj, if_pos hj]
      · rw [if_neg hj, if_neg hj, ih]

theorem mem_sremove_iff (p : String × Value) (m : StrMap) (k : String) :
    p ∈ sremove m k ↔ p ∈ m ∧ p.1 ≠ k := by
  induction m with
  | nil => simp [sremove]
  | cons q rest ih =>
    obtain ⟨k', v⟩ := q
    simp only [sremove]
    by_cases hk : k' = k
    · subst hk
      rw [if_pos rfl]
      simp only [List.mem_cons, ih]
      constructor
      · rintro ⟨hp, hne⟩
        exact ⟨Or.inr hp, hne⟩
      · rintro ⟨hp | hp, hne⟩
        · subst hp; simp at hne
        · exact ⟨hp, hne⟩
    · rw [if_neg hk]
      simp only [List.mem_cons, ih]
      constructor
      · rintro (rfl | ⟨hp, hne⟩)
        · exact ⟨Or.inl rfl, by simpa using hk⟩
        · exact ⟨Or.inr hp, hne⟩
      · rintro ⟨rfl | hp, hne⟩
        · exact Or.inl rfl
        · exact Or.inr ⟨hp, hne⟩

theorem sremove_append (m m' : StrMap) (k : String) :
    sremove (m ++ m') k = sremove m k ++ sremove m' k := by
  induction m with
  | nil => rfl
  | cons p rest ih =>
    obtain ⟨k', v⟩ := p
    by_cases hk : k' = k <;> simp [sremove, hk, ih]

theorem slookup_append_ne (m : StrMap) (j k : String) (w : Value)
    (h : j ≠ k) : slookup (m ++ [(j, w)]) k = slookup m k := by
  induction m with
  | nil => simp [slookup, h]
  | cons p rest ih =>
    obtain ⟨k', v⟩ := p
    by_cases hk : k' = k <;> simp [slookup, hk, ih]

theorem ilookup_iremove_ne (m : IntMap) (k j : Int) (h : j ≠ k) :
    ilookup (iremove m k) j = ilookup m j := by
  induction m with
  | nil => rfl
  | cons p rest ih =>
    obtain ⟨k', v⟩ := p
    simp only [iremove, ilookup]
    by_cases hk : k' = k
    · rw [if_pos hk, ih, if_neg (fun e => h (e.symm.trans hk))]
    · rw [if_neg hk]
      simp only [ilookup]
      by_cases hj : k' = j
      · rw [if_pos hj, if_pos hj]
      · rw [if_neg hj, if_neg hj, ih]

/-! Characterisations of the extraction primitives. -/

theorem extract_key_lookup_none {m : StrMap} {k : String}
    (h : slookup m k = none) :
    extract_key m k = (.error (.missingKey k), m) := by
  simp [extract_key, h]

theorem extract_key_lookup_some {m : StrMap} {k : String} {v : Value}
    (h : slookup m k = some v) :
    extract_key m k = (.ok v, sremove m k) := by
  simp [extract_key, h]

theorem extract_key_snd (m : StrMap) (k : String) :
    (extract_key m k).2 = m ∨ (extract_key m k).2 = sremove m k := by
  unfold extract_key
  cases slookup m k <;> simp

theorem mem_extract_key {p : String × Value} {m : StrMap} {k : String}
    (hp : p ∈ m) (hk : p.1 ≠ k) : p ∈ (extract_key m k).2 := by
  rcases extract_key_snd m k with h | h <;> rw [h]
  · exact hp
  · exact (mem_sremove_iff ..).mpr ⟨hp, hk⟩

theorem slookup_extract_key (m : StrMap) (k j : String) (h : j ≠ k) :
    slookup (extract_key m k).2 j = slookup m j := by
  rcases extract_key_snd m k with h2 | h2 <;> rw [h2]
  · exact slookup_sremove_ne m k j h

theorem extract_key_append (m : StrMap) (k j : String) (w : Value)
    (h : j ≠ k) :
    extract_key (m ++ [(j, w)]) k =
      ((extract_key m k).1, (extract_key m k).2 ++ [(j, w)]) := by
  unfold extract_key
  rw [slookup_append_ne m j k w h]
  cases hl : slookup m k
  · simp
  · simp [sremove_append, sremove, h]

theorem gen_extract_snd {α : Type} (tc : Value → Option α) (m : StrMap)
    (k : String) : (gen_extract tc m k).2 = (extract_key m k).2 := by
  unfold gen_extract
  cases h : extract_key m k with
  | mk r m' =>
    cases r with
    | ok v => cases h2 : tc v <;> simp [h2]
    | error e => simp

theorem mem_gen_extract {α : Type} (tc : Value → Option α)
    {p : String × Value} {m : StrMap} {k : String}
    (hp : p ∈ m) (hk : p.1 ≠ k) : p ∈ (gen_extract tc m k).2 := by
  rw [gen_extract_snd]; exact mem_extract_key hp hk

theorem slookup_gen_extract {α : Type} (tc : Value → Option α) (m : StrMap)
    (k j : String) (h : j ≠ k) :
    slookup (gen_extract tc m k).2 j = slookup m j := by
  rw [gen_extract_snd]; exact slookup_extract_key m k j h

theorem gen_extract_append {α : Type} (tc : Value → Option α) (m : StrMap)
    (k j : String) (w : Value) (h : j ≠ k) :
    gen_extract tc (m ++ [(j, w)]) k =
      ((gen_extract tc m k).1, (gen_extract tc m k).2 ++ [(j, w)]) := by
  unfold gen_extract
  rw [extract_key_append m k j w h]
  cases hk : extract_key m k with
  | mk r m' =>
    cases r with
    | ok v => cases h2 : tc v <;> simp [h2]
    | error e => simp

theorem gen_extract_lookup_none {α : Type} {tc : Value → Option α}
    {m : StrMap} {k : String} (h : slookup m k = none) :
    gen_extract tc m k = (.error (.missingKey k), m) := by
  unfold gen_extract; rw [extract_key_lookup_none h]

theorem gen_extract_lookup_some {α : Type} {tc : Value → Option α}
    {m : StrMap} {k : String} {v : Value} (h : slookup m k = some v) :
    gen_extract tc m k =
      (match tc v with
       | some r => (.ok r, sremove m k)
       | none => (.error (.invalidFormatFor k), sremove m k)) := by
  unfold gen_extract; rw [extract_key_lookup_some h]

theorem gen_extract_ok {α : Type} {tc : Value → Option α} {m : StrMap}
    {k : String} {r : α} {m' : StrMap}
    (h : gen_extract tc m k = (.ok r, m')) :
    ∃ v, slookup m k = some v ∧ tc v = some r ∧ m' = sremove m k := by
  cases hl : slookup m k with
  | none => rw [gen_extract_lookup_none hl] at h; simp at h
  | some v =>
    rw [gen_extract_lookup_some hl] at h
    cases h2 : tc v with
    | none => rw [h2] at h; simp at h
    | some r' =>
      rw [h2] at h
      simp only [Prod.mk.injEq, Except.ok.injEq] at h
      exact ⟨v, rfl, by rw [h2, h.1], h.2.symm⟩

/-! Convenience characterisations of the typed extractors. -/

theorem extract_string_some {m : StrMap} {k : String} {s : String}
    (h : slookup m k = some (.text s)) :
    extract_string m k = (.ok s, sremove m k) := by
  simp [extract_string, gen_extract, extract_key_lookup_some h]

theorem extract_string_none {m : StrMap} {k : String}
    (h : slookup m k = none) :
    extract_string m k = (.error (.missingKey k), m) := by
  simp [extract_string, gen_extract, extract_key_lookup_none h]

theorem extract_int_some {m : StrMap} {k : String} {n : Int}
    (h : slookup m k = some (.integer n)) :
    extract_int m k = (.ok n, sremove m k) := by
  simp [extract_int, gen_extract, extract_key_lookup_some h]

theorem extract_array_some {m : StrMap} {k : String} {xs : List Value}
    (h : slookup m k = some (.array xs)) :
    extract_array m k = (.ok xs, sremove m k) := by
  simp [extract_array, gen_extract, extract_key_lookup_some h]

theorem extract_array_ok {m : StrMap} {k : String} {xs : List Value}
    {m' : StrMap} (h : extract_array m k = (.ok xs, m')) :
    slookup m k = some (.array xs) := by
  obtain ⟨v, hv, htc, _⟩ :=
    @gen_extract_ok _ (fun v =>
      match v with | .array r => some r | _ => none) _ _ _ _ h
  cases v <;> simp at htc
  rw [hv, htc]

theorem extract_string_ok {m : StrMap} {k : String} {s : String}
    {m' : StrMap} (h : extract_string m k = (.ok s, m')) :
    slookup m k = some (.text s) ∧ m' = sremove m k := by
  obtain ⟨v, hv, htc, hm⟩ :=
    @gen_extract_ok _ (fun v =>
      match v with | .text r => some r | _ => none) _ _ _ _ h
  cases v <;> simp at htc
  exact ⟨by rw [hv, htc], hm⟩

/-! The composite extractors leave the map exactly as their underlying
primitive does. -/

theorem extract_date_snd (m : StrMap) (k : String) :
    (extract_date m k).2 = (extract_string m k).2 := by
  unfold extract_date
  cases h : extract_string m k with
  | mk r m' =>
    cases r with
    | ok ds => cases hp : parse_naive_date ds <;> simp [hp]
    | error e => simp

theorem extract_date_some {m : StrMap} {k s : String} {d : NDate}
    (h : slookup m k = some (.text s)) (hp : parse_naive_date s = some d) :
    extract_date m k = (.ok d, sremove m k) := by
  unfold extract_date
  rw [extract_string_some h]
  simp [hp]

theorem extract_date_append (m : StrMap) (k j : String) (w : Value)
    (h : j ≠ k) :
    extract_date (m ++ [(j, w)]) k =
      ((extract_date m k).1, (extract_date m k).2 ++ [(j, w)]) := by
  unfold extract_date
  rw [show extract_string (m ++ [(j, w)]) k =
    ((extract_string m k).1, (extract_string m k).2 ++ [(j, w)]) from
    gen_extract_append _ m k j w h]
  cases hs : extract_string m k with
  | mk r m' =>
    cases r with
    | ok ds => cases hp : parse_naive_date ds <;> simp [hp]
    | error e => simp

theorem extract_isodatetime_snd (m : StrMap) (k : String) :
    (extract_isodatetime m k).2 = (extract_string m k).2 := by
  unfold extract_isodatetime
  cases h : extract_string m k with
  | mk r m' =>
    cases r with
    | ok ds => cases hp : parse_isodatetime ds <;> simp [hp]
    | error e => simp

theorem extract_isodatetime_some {m : StrMap} {k s : String} {d : DateTimeFO}
    (h : slookup m k = some (.text s)) (hp : parse_isodatetime s = some d) :
    extract_isodatetime m k = (.ok d, sremove m k) := by
  unfold extract_isodatetime
  rw [extract_string_some h]
  simp [hp]

theorem extract_isodatetime_append (m : StrMap) (k j : String) (w : Value)
    (h : j ≠ k) :
    extract_isodatetime (m ++ [(j, w)]) k =
      ((extract_isodatetime m k).1, (extract_isodatetime m k).2 ++ [(j, w)]) := by
  unfold extract_isodatetime
  rw [show extract_string (m ++ [(j, w)]) k =
    ((extract_string m k).1, (extract_string m k).2 ++ [(j, w)]) from
    gen_extract_append _ m k j w h]
  cases hs : extract_string m k with
  | mk r m' =>
    cases r with
    | ok ds => cases hp : parse_isodatetime ds <;> simp [hp]
    | error e => simp

theorem extract_string_map_snd (m : StrMap) (k : String) :
    (extract_string_map m k).2 = (extract_key m k).2 := by
  unfold extract_string_map
  cases h : extract_key m k with
  | mk r m' =>
    cases r with
    | ok v => cases ht : to_strmap k v <;> simp [ht]
    | error e => simp

theorem extract_string_map_some {m : StrMap} {k : String} {v : Value}
    {sm : StrMap} (h : slookup m k = some v) (ht : to_strmap k v = .ok sm) :
    extract_string_map m k = (.ok sm, sremove m k) := by
  unfold extract_string_map
  rw [extract_key_lookup_some h]
  simp [ht]

theorem extract_string_map_append (m : StrMap) (k j : String) (w : Value)
    (h : j ≠ k) :
    extract_string_map (m ++ [(j, w)]) k =
      ((extract_string_map m k).1, (extract_string_map m k).2 ++ [(j, w)]) := by
  unfold extract_string_map
  rw [extract_key_append m k j w h]
  cases hs : extract_key m k with
  | mk r m' =>
    cases r with
    | ok v => cases ht : to_strmap k v <;> simp [ht]
    | error e => simp

/-! Shape and length lemmas about entry collection. -/

theorem collect_results_shape {α β : Type} {f : α → Except Error β}
    {P : β → Prop} (hf : ∀ a b, f a = .ok b → P b) :
    ∀ {xs : List α} {bs : List β},
      collect_results f xs = .ok bs → ∀ b ∈ bs, P b := by
  intro xs
  induction xs with
  | nil => intro bs h b hb; simp [collect_results] at h; subst h; simp at hb
  | cons x rest ih =>
    intro bs h b hb
    unfold collect_results at h
    cases hx : f x with
    | error e => rw [hx] at h; simp at h
    | ok b0 =>
      rw [hx] at h
      cases hr : collect_results f rest with
      | error e => rw [hr] at h; simp at h
      | ok bs0 =>
        rw [hr] at h
        simp only [Except.ok.injEq] at h
        subst h
        rcases List.mem_cons.mp hb with rfl | hb0
        · exact hf x b hx
        · exact ih hr b hb0

theorem collect_results_length {α β : Type} {f : α → Except Error β} :
    ∀ {xs : List α} {bs : List β},
      collect_results f xs = .ok bs → bs.length = xs.length := by
  intro xs
  induction xs with
  | nil => intro bs h; simp [collect_results] at h; subst h; rfl
  | cons x rest ih =>
    intro bs h
    unfold collect_results at h
    cases hx : f x with
    | error e => rw [hx] at h; simp at h
    | ok b0 =>
      rw [hx] at h
      cases hr : collect_results f rest with
      | error e => rw [hr] at h; simp at h
      | ok bs0 =>
        rw [hr] at h
        simp only [Except.ok.injEq] at h
        subst h
        simp [ih hr]

theorem recovery_entry_shape {v : Value} {c : CertInfo}
    (h : recovery_entry v = .ok c) : ∃ r, c = .Recovery r := by
  unfold recovery_entry at h
  cases ht : to_strmap "recovery entry" v with
  | error e => rw [ht] at h; simp at h
  | ok m =>
    rw [ht] at h
    simp only [] at h
    cases hr : Recovery.tryFrom m with
    | error e => rw [hr] at h; simp at h
    | ok r =>
      rw [hr] at h
      simp at h
      subst h
      exact ⟨r, rfl⟩

theorem test_entry_shape {v : Value} {c : CertInfo}
    (h : test_entry v = .ok c) : ∃ t, c = .Test t := by
  unfold test_entry at h
  cases ht : to_strmap "test entry" v with
  | error e => rw [ht] at h; simp at h
  | ok m =>
    rw [ht] at h
    simp only [] at h
    cases hr : Test.tryFrom m with
    | error e => rw [hr] at h; simp at h
    | ok t =>
      rw [hr] at h
      simp at h
      subst h
      exact ⟨t, rfl⟩

theorem vaccine_entry_shape {v : Value} {c : CertInfo}
    (h : vaccine_entry v = .ok c) : ∃ vc, c = .Vaccine vc := by
  unfold vaccine_entry at h
  cases ht : to_strmap "vaccine entry" v with
  | error e => rw [ht] at h; simp at h
  | ok m =>
    rw [ht] at h
    simp only [] at h
    cases hr : Vaccine.tryFrom m with
    | error e => rw [hr] at h; simp at h
    | ok vc =>
      rw [hr] at h
      simp at h
      subst h
      exact ⟨vc, rfl⟩

/-! Step helpers: given the result of one extraction, transport membership,
sibling lookups, and the one-extra-pair extension through that step. -/

theorem extract_string_mem_of {p : String × Value} {m : StrMap} {k : String}
    {res : Except Error String} {m1 : StrMap}
    (he : extract_string m k = (res, m1)) (hp : p ∈ m) (hk : p.1 ≠ k) :
    p ∈ m1 := by
  have h2 : p ∈ (extract_string m k).2 := mem_gen_extract _ hp hk
  rw [he] at h2; exact h2

theorem extract_int_mem_of {p : String × Value} {m : StrMap} {k : String}
    {res : Except Error Int} {m1 : StrMap}
    (he : extract_int m k = (res, m1)) (hp : p ∈ m) (hk : p.1 ≠ k) :
    p ∈ m1 := by
  have h2 : p ∈ (extract_int m k).2 := mem_gen_extract _ hp hk
  rw [he] at h2; exact h2

theorem extract_array_mem_of {p : String × Value} {m : StrMap} {k : String}
    {res : Except Error (List Value)} {m1 : StrMap}
    (he : extract_array m k = (res, m1)) (hp : p ∈ m) (hk : p.1 ≠ k) :
    p ∈ m1 := by
  have h2 : p ∈ (extract_array m k).2 := mem_gen_extract _ hp hk
  rw [he] at h2; exact h2

theorem extract_date_mem_of {p : String × Value} {m : StrMap} {k : String}
    {res : Except Error NDate} {m1 : StrMap}
    (he : extract_date m k = (res, m1)) (hp : p ∈ m) (hk : p.1 ≠ k) :
    p ∈ m1 := by
  have h2 : p ∈ (extract_date m k).2 := by
    rw [extract_date_snd]; exact mem_gen_extract _ hp hk
  rw [he] at h2; exact h2

theorem extract_isodatetime_mem_of {p : String × Value} {m : StrMap}
    {k : String} {res : Except Error DateTimeFO} {m1 : StrMap}
    (he : extract_isodatetime m k = (res, m1)) (hp : p ∈ m) (hk : p.1 ≠ k) :
    p ∈ m1 := by
  have h2 : p ∈ (extract_isodatetime m k).2 := by
    rw [extract_isodatetime_snd]; exact mem_gen_extract _ hp hk
  rw [he] at h2; exact h2

theorem extract_string_map_mem_of {p : String × Value} {m : StrMap}
    {k : String} {res : Except Error StrMap} {m1 : StrMap}
    (he : extract_string_map m k = (res, m1)) (hp : p ∈ m) (hk : p.1 ≠ k) :
    p ∈ m1 := by
  have h2 : p ∈ (extract_string_map m k).2 := by
    rw [extract_string_map_snd]; exact mem_extract_key hp hk
  rw [he] at h2; exact h2

theorem extract_string_lookup_of {m : StrMap} {k : String}
    {res : Except Error String} {m1 : StrMap} {j : String}
    (he : extract_string m k = (res, m1)) (hjk : j ≠ k) :
    slookup m1 j = slookup m j := by
  have h2 := slookup_gen_extract (fun v =>
    match v with | .text r => some r | _ => none) m k j hjk
  rw [show gen_extract (fun v =>
    match v with | .text r => some r | _ => none) m k = (res, m1) from he] at h2
  exact h2

theorem extract_isodatetime_lookup_of {m : StrMap} {k : String}
    {res : Except Error DateTimeFO} {m1 : StrMap} {j : String}
    (he : extract_isodatetime m k = (res, m1)) (hjk : j ≠ k) :
    slookup m1 j = slookup m j := by
  have h2 : slookup (extract_isodatetime m k).2 j = slookup m j := by
    rw [extract_isodatetime_snd]
    exact slookup_gen_extract _ m k j hjk
  rw [he] at h2; exact h2

theorem extract_array_lookup_of {m : StrMap} {k : String}
    {res : Except Error (List Value)} {m1 : StrMap} {j : String}
    (he : extract_array m k = (res, m1)) (hjk : j ≠ k) :
    slookup m1 j = slookup m j := by
  have h2 := slookup_gen_extract (fun v =>
    match v with | .array r => some r | _ => none) m k j hjk
  rw [show gen_extract (fun v =>
    match v with | .array r => some r | _ => none) m k = (res, m1) from he] at h2
  exact h2

theorem extract_string_append_of {m : StrMap} {k : String}
    {res : Except Error String} {m1 : StrMap} {j : String} {w : Value}
    (hjk : j ≠ k) (he : extract_string m k = (res, m1)) :
    extract_string (m ++ [(j, w)]) k = (res, m1 ++ [(j, w)]) := by
  rw [show extract_string (m ++ [(j, w)]) k =
    ((extract_string m k).1, (extract_string m k).2 ++ [(j, w)]) from
    gen_extract_append _ m k j w hjk, he]

theorem extract_int_append_of {m : StrMap} {k : String}
    {res : Except Error Int} {m1 : StrMap} {j : String} {w : Value}
    (hjk : j ≠ k) (he : extract_int m k = (res, m1)) :
    extract_int (m ++ [(j, w)]) k = (res, m1 ++ [(j, w)]) := by
  rw [show extract_int (m ++ [(j, w)]) k =
    ((extract_int m k).1, (extract_int m k).2 ++ [(j, w)]) from
    gen_extract_append _ m k j w hjk, he]

theorem extract_array_append_of {m : StrMap} {k : String}
    {res : Except Error (List Value)} {m1 : StrMap} {j : String} {w : Value}
    (hjk : j ≠ k) (he : extract_array m k = (res, m1)) :
    extract_array (m ++ [(j, w)]) k = (res, m1 ++ [(j, w)]) := by
  rw [show extract_array (m ++ [(j, w)]) k =
    ((extract_array m k).1, (extract_array m k).2 ++ [(j, w)]) from
    gen_extract_append _ m k j w hjk, he]

theorem extract_date_append_of {m : StrMap} {k : String}
    {res : Except Error NDate} {m1 : StrMap} {j : String} {w : Value}
    (hjk : j ≠ k) (he : extract_date m k = (res, m1)) :
    extract_date (m ++ [(j, w)]) k = (res, m1 ++ [(j, w)]) := by
  rw [extract_date_append m k j w hjk, he]

theorem extract_isodatetime_append_of {m : StrMap} {k : String}
    {res : Except Error DateTimeFO} {m1 : StrMap} {j : String} {w : Value}
    (hjk : j ≠ k) (he : extract_isodatetime m k = (res, m1)) :
    extract_isodatetime (m ++ [(j, w)]) k = (res, m1 ++ [(j, w)]) := by
  rw [extract_isodatetime_append m k j w hjk, he]

theorem extract_string_map_append_of {m : StrMap} {k : String}
    {res : Except Error StrMap} {m1 : StrMap} {j : String} {w : Value}
    (hjk : j ≠ k) (he : extract_string_map m k = (res, m1)) :
    extract_string_map (m ++ [(j, w)]) k = (res, m1 ++ [(j, w)]) := by
  rw [extract_string_map_append m k j w hjk, he]

/-! Lemmas about the three-way entry selection `gp_entries`. -/

theorem gp_entries_mem_of {p : String × Value} {m : StrMap}
    {res : Except Error (List CertInfo)} {m1 : StrMap}
    (he : gp_entries m = (res, m1)) (hp : p ∈ m)
    (hr : p.1 ≠ "r") (ht : p.1 ≠ "t") (hv : p.1 ≠ "v") : p ∈ m1 := by
  unfold gp_entries at he
  cases h1 : extract_array m "r" with
  | mk r1 mA =>
  rw [h1] at he
  have hpA : p ∈ mA := extract_array_mem_of h1 hp hr
  cases r1 with
  | ok rs => simp only [] at he; cases he; exact hpA
  | error e1 =>
  simp only [] at he
  cases h2 : extract_array mA "t" with
  | mk r2 mB =>
  rw [h2] at he
  have hpB : p ∈ mB := extract_array_mem_of h2 hpA ht
  cases r2 with
  | ok ts => simp only [] at he; cases he; exact hpB
  | error e2 =>
  simp only [] at he
  cases h3 : extract_array mB "v" with
  | mk r3 mC =>
  rw [h3] at he
  have hpC : p ∈ mC := extract_array_mem_of h3 hpB hv
  cases r3 with
  | ok vs => simp only [] at he; cases he; exact hpC
  | error e3 => simp only [] at he; cases he; exact hpC

theorem gp_entries_append_of {m : StrMap}
    {res : Except Error (List CertInfo)} {m1 : StrMap} {j : String} {w : Value}
    (hr : j ≠ "r") (ht : j ≠ "t") (hv : j ≠ "v")
    (he : gp_entries m = (res, m1)) :
    gp_entries (m ++ [(j, w)]) = (res, m1 ++ [(j, w)]) := by
  unfold gp_entries at he ⊢
  cases h1 : extract_array m "r" with
  | mk r1 mA =>
  rw [extract_array_append_of hr h1]
  rw [h1] at he
  cases r1 with
  | ok rs => simp only [] at he ⊢; cases he; rfl
  | error e1 =>
  simp only [] at he ⊢
  cases h2 : extract_array mA "t" with
  | mk r2 mB =>
  rw [extract_array_append_of ht h2]
  rw [h2] at he
  cases r2 with
  | ok ts => simp only [] at he ⊢; cases he; rfl
  | error e2 =>
  simp only [] at he ⊢
  cases h3 : extract_array mB "v" with
  | mk r3 mC =>
  rw [extract_array_append_of hv h3]
  rw [h3] at he
  cases r3 with
  | ok vs => simp only [] at he ⊢; cases he; rfl
  | error e3 => simp only [] at he ⊢; cases he; rfl

theorem gp_entries_cases {m : StrMap} {entries : List CertInfo} {m1 : StrMap}
    (he : gp_entries m = (.ok entries, m1)) :
    (∃ rs, slookup m "r" = some (.array rs) ∧
      recovery_entries rs = .ok entries) ∨
    ((∀ xs, slookup m "r" ≠ some (.array xs)) ∧
      ∃ ts, slookup m "t" = some (.array ts) ∧
        test_entries ts = .ok entries) ∨
    ((∀ xs, slookup m "r" ≠ some (.array xs)) ∧
      (∀ xs, slookup m "t" ≠ some (.array xs)) ∧
      ∃ vs, slookup m "v" = some (.array vs) ∧
        vaccine_entries vs = .ok entries) := by
  unfold gp_entries at he
  cases h1 : extract_array m "r" with
  | mk r1 mA =>
  rw [h1] at he
  cases r1 with
  | ok rs =>
    simp only [] at he
    have hfst := congrArg Prod.fst he
    simp only [] at hfst
    exact Or.inl ⟨rs, extract_array_ok h1, hfst⟩
  | error e1 =>
  have hnr : ∀ xs, slookup m "r" ≠ some (.array xs) := by
    intro xs hcontra
    rw [extract_array_some hcontra] at h1
    simp at h1
  simp only [] at he
  cases h2 : extract_array mA "t" with
  | mk r2 mB =>
  rw [h2] at he
  have hTlook : slookup mA "t" = slookup m "t" :=
    extract_array_lookup_of h1 (by decide)
  cases r2 with
  | ok ts =>
    simp only [] at he
    have hfst := congrArg Prod.fst he
    simp only [] at hfst
    refine Or.inr (Or.inl ⟨hnr, ts, ?_, hfst⟩)
    rw [← hTlook]
    exact extract_array_ok h2
  | error e2 =>
  have hnt : ∀ xs, slookup m "t" ≠ some (.array xs) := by
    intro xs hcontra
    rw [← hTlook] at hcontra
    rw [extract_array_some hcontra] at h2
    simp at h2
  simp only [] at he
  cases h3 : extract_array mB "v" with
  | mk r3 mC =>
  rw [h3] at he
  have hVlook : slookup mB "v" = slookup m "v" := by
    rw [extract_array_lookup_of h2 (by decide),
        extract_array_lookup_of h1 (by decide)]
  cases r3 with
  | ok vs =>
    simp only [] at he
    have hfst := congrArg Prod.fst he
    simp only [] at hfst
    refine Or.inr (Or.inr ⟨hnr, hnt, vs, ?_, hfst⟩)
    rw [← hVlook]
    exact extract_array_ok h3
  | error e3 =>
    simp only [] at he
    have hfst := congrArg Prod.fst he
    simp only [] at hfst
    simp at hfst

theorem gp_entries_all_missing {m : StrMap}
    (hr : ∀ xs, slookup m "r" ≠ some (.array xs))
    (ht : ∀ xs, slookup m "t" ≠ some (.array xs))
    (hv : ∀ xs, slookup m "v" ≠ some (.array xs)) :
    (gp_entries m).1 = .error (.missingKey "r, t or v (the actual data)") := by
  unfold gp_entries
  cases h1 : extract_array m "r" with
  | mk r1 mA =>
  cases r1 with
  | ok rs => exact absurd (extract_array_ok h1) (hr rs)
  | error e1 =>
  have hTlook : slookup mA "t" = slookup m "t" :=
    extract_array_lookup_of h1 (by decide)
  simp only []
  cases h2 : extract_array mA "t" with
  | mk r2 mB =>
  cases r2 with
  | ok ts =>
    have := extract_array_ok h2
    rw [hTlook] at this
    exact absurd this (ht ts)
  | error e2 =>
  have hVlook : slookup mB "v" = slookup m "v" := by
    rw [extract_array_lookup_of h2 (by decide),
        extract_array_lookup_of h1 (by decide)]
  simp only []
  cases h3 : extract_array mB "v" with
  | mk r3 mC =>
  cases r3 with
  | ok vs =>
    have := extract_array_ok h3
    rw [hVlook] at this
    exact absurd this (hv vs)
  | error e3 => rfl

end GP

namespace GP

/-! Per-decoder facts: every successfully decoded map only contains
recognised keys, and appending one unrecognised pair turns success into the
`SpuriousData` error carrying exactly that pair. -/

/-- The keys `Recovery::try_from` ever extracts. -/
def recoveryKeys : List String := ["ci", "co", "fr", "tg", "is", "df", "du"]

theorem recovery_keys_sub {m : StrMap} {r : Recovery}
    (h : Recovery.tryFrom m = .ok r) : ∀ p ∈ m, p.1 ∈ recoveryKeys := by
  intro p hp
  by_contra hnot
  simp only [recoveryKeys, List.mem_cons, List.not_mem_nil, or_false,
    not_or] at hnot
  obtain ⟨n1, n2, n3, n4, n5, n6, n7⟩ := hnot
  unfold Recovery.tryFrom at h
  cases e1 : extract_string m "ci" with
  | mk r1 m1 =>
  rw [e1] at h
  cases r1 with
  | error e => simp at h
  | ok ci =>
  simp only [] at h
  have hp1 : p ∈ m1 := extract_string_mem_of e1 hp n1
  cases e2 : extract_string m1 "co" with
  | mk r2 m2 =>
  rw [e2] at h
  cases r2 with
  | error e => simp at h
  | ok co =>
  simp only [] at h
  have hp2 : p ∈ m2 := extract_string_mem_of e2 hp1 n2
  cases e3 : extract_date m2 "fr" with
  | mk r3 m3 =>
  rw [e3] at h
  cases r3 with
  | error e => simp at h
  | ok fr =>
  simp only [] at h
  have hp3 : p ∈ m3 := extract_date_mem_of e3 hp2 n3
  cases e4 : extract_string m3 "tg" with
  | mk r4 m4 =>
  rw [e4] at h
  cases r4 with
  | error e => simp at h
  | ok tg =>
  simp only [] at h
  have hp4 : p ∈ m4 := extract_string_mem_of e4 hp3 n4
  cases e5 : extract_string m4 "is" with
  | mk r5 m5 =>
  rw [e5] at h
  cases r5 with
  | error e => simp at h
  | ok si =>
  simp only [] at h
  have hp5 : p ∈ m5 := extract_string_mem_of e5 hp4 n5
  cases e6 : extract_date m5 "df" with
  | mk r6 m6 =>
  rw [e6] at h
  cases r6 with
  | error e => simp at h
  | ok df =>
  simp only [] at h
  have hp6 : p ∈ m6 := extract_date_mem_of e6 hp5 n6
  cases e7 : extract_date m6 "du" with
  | mk r7 m7 =>
  rw [e7] at h
  cases r7 with
  | error e => simp at h
  | ok du =>
  simp only [] at h
  have hp7 : p ∈ m7 := extract_date_mem_of e7 hp6 n7
  cases hq : m7.isEmpty with
  | true =>
    have hnil : m7 = [] := (isEmpty_iff_nil m7).mp hq
    rw [hnil] at hp7
    simp at hp7
  | false =>
    rw [hq] at h
    simp at h

theorem recovery_append {m : StrMap} {r : Recovery} {j : String} {w : Value}
    (h : Recovery.tryFrom m = .ok r) (hj : j ∉ recoveryKeys) :
    Recovery.tryFrom (m ++ [(j, w)]) = .error (.spuriousData [(j, w)]) := by
  simp only [recoveryKeys, List.mem_cons, List.not_mem_nil, or_false,
    not_or] at hj
  obtain ⟨n1, n2, n3, n4, n5, n6, n7⟩ := hj
  unfold Recovery.tryFrom at h ⊢
  cases e1 : extract_string m "ci" with
  | mk r1 m1 =>
  rw [e1] at h
  rw [extract_string_append_of n1 e1]
  cases r1 with
  | error e => simp at h
  | ok ci =>
  simp only [] at h ⊢
  cases e2 : extract_string m1 "co" with
  | mk r2 m2 =>
  rw [e2] at h
  rw [extract_string_append_of n2 e2]
  cases r2 with
  | error e => simp at h
  | ok co =>
  simp only [] at h ⊢
  cases e3 : extract_date m2 "fr" with
  | mk r3 m3 =>
  rw [e3] at h
  rw [extract_date_append_of n3 e3]
  cases r3 with
  | error e => simp at h
  | ok fr =>
  simp only [] at h ⊢
  cases e4 : extract_string m3 "tg" with
  | mk r4 m4 =>
  rw [e4] at h
  rw [extract_string_append_of n4 e4]
  cases r4 with
  | error e => simp at h
  | ok tg =>
  simp only [] at h ⊢
  cases e5 : extract_string m4 "is" with
  | mk r5 m5 =>
  rw [e5] at h
  rw [extract_string_append_of n5 e5]
  cases r5 with
  | error e => simp at h
  | ok si =>
  simp only [] at h ⊢
  cases e6 : extract_date m5 "df" with
  | mk r6 m6 =>
  rw [e6] at h
  rw [extract_date_append_of n6 e6]
  cases r6 with
  | error e => simp at h
  | ok df =>
  simp only [] at h ⊢
  cases e7 : extract_date m6 "du" with
  | mk r7 m7 =>
  rw [e7] at h
  rw [extract_date_append_of n7 e7]
  cases r7 with
  | error e => simp at h
  | ok du =>
  simp only [] at h ⊢
  cases hq : m7.isEmpty with
  | false =>
    rw [hq] at h
    simp at h
  | true =>
    have hnil : m7 = [] := (isEmpty_iff_nil m7).mp hq
    subst hnil
    rfl

end GP

namespace GP

/-- The keys `Vaccine::try_from` ever extracts. -/
def vaccineKeys : List String := ["ci", "co", "dt", "tg", "dn", "sd", "is", "ma", "mp", "vp"]

theorem vaccine_keys_sub {m : StrMap} {vc : Vaccine}
    (h : Vaccine.tryFrom m = .ok vc) : ∀ p ∈ m, p.1 ∈ vaccineKeys := by
  intro p hp
  by_contra hnot
  simp only [vaccineKeys, List.mem_cons, List.not_mem_nil, or_false,
    not_or] at hnot
  obtain ⟨n1, n2, n3, n4, n5, n6, n7, n8, n9, n10⟩ := hnot
  unfold Vaccine.tryFrom at h
  cases e1 : extract_string m "ci" with
  | mk r1 m1 =>
  rw [e1] at h
  cases r1 with
  | error e => simp at h
  | ok v1 =>
  simp only [] at h
  have hp1 : p ∈ m1 := extract_string_mem_of e1 hp n1
  cases e2 : extract_string m1 "co" with
  | mk r2 m2 =>
  rw [e2] at h
  cases r2 with
  | error e => simp at h
  | ok v2 =>
  simp only [] at h
  have hp2 : p ∈ m2 := extract_string_mem_of e2 hp1 n2
  cases e3 : extract_date m2 "dt" with
  | mk r3 m3 =>
  rw [e3] at h
  cases r3 with
  | error e => simp at h
  | ok v3 =>
  simp only [] at h
  have hp3 : p ∈ m3 := extract_date_mem_of e3 hp2 n3
  cases e4 : extract_string m3 "tg" with
  | mk r4 m4 =>
  rw [e4] at h
  cases r4 with
  | error e => simp at h
  | ok v4 =>
  simp only [] at h
  have hp4 : p ∈ m4 := extract_string_mem_of e4 hp3 n4
  cases e5 : extract_int m4 "dn" with
  | mk r5 m5 =>
  rw [e5] at h
  cases r5 with
  | error e => simp at h
  | ok v5 =>
  simp only [] at h
  have hp5 : p ∈ m5 := extract_int_mem_of e5 hp4 n5
  cases e6 : extract_int m5 "sd" with
  | mk r6 m6 =>
  rw [e6] at h
  cases r6 with
  | error e => simp at h
  | ok v6 =>
  simp only [] at h
  have hp6 : p ∈ m6 := extract_int_mem_of e6 hp5 n6
  cases e7 : extract_string m6 "is" with
  | mk r7 m7 =>
  rw [e7] at h
  cases r7 with
  | error e => simp at h
  | ok v7 =>
  simp only [] at h
  have hp7 : p ∈ m7 := extract_string_mem_of e7 hp6 n7
  cases e8 : extract_string m7 "ma" with
  | mk r8 m8 =>
  rw [e8] at h
  cases r8 with
  | error e => simp at h
  | ok v8 =>
  simp only [] at h
  have hp8 : p ∈ m8 := extract_string_mem_of e8 hp7 n8
  cases e9 : extract_string m8 "mp" with
  | mk r9 m9 =>
  rw [e9] at h
  cases r9 with
  | error e => simp at h
  | ok v9 =>
  simp only [] at h
  have hp9 : p ∈ m9 := extract_string_mem_of e9 hp8 n9
  cases e10 : extract_string m9 "vp" with
  | mk r10 m10 =>
  rw [e10] at h
  cases r10 with
  | error e => simp at h
  | ok v10 =>
  simp only [] at h
  have hp10 : p ∈ m10 := extract_string_mem_of e10 hp9 n10
  cases hq : m10.isEmpty with
  | true =>
    have hnil : m10 = [] := (isEmpty_iff_nil m10).mp hq
    rw [hnil] at hp10
    simp at hp10
  | false =>
    rw [hq] at h
    simp at h

theorem vaccine_append {m : StrMap} {vc : Vaccine} {j : String} {w : Value}
    (h : Vaccine.tryFrom m = .ok vc) (hj : j ∉ vaccineKeys) :
    Vaccine.tryFrom (m ++ [(j, w)]) = .error (.spuriousData [(j, w)]) := by
  simp only [vaccineKeys, List.mem_cons, List.not_mem_nil, or_false,
    not_or] at hj
  obtain ⟨n1, n2, n3, n4, n5, n6, n7, n8, n9, n10⟩ := hj
  unfold Vaccine.tryFrom at h ⊢
  cases e1 : extract_string m "ci" with
  | mk r1 m1 =>
  rw [e1] at h
  rw [extract_string_append_of n1 e1]
  cases r1 with
  | error e => simp at h
  | ok v1 =>
  simp only [] at h ⊢
  cases e2 : extract_string m1 "co" with
  | mk r2 m2 =>
  rw [e2] at h
  rw [extract_string_append_of n2 e2]
  cases r2 with
  | error e => simp at h
  | ok v2 =>
  simp only [] at h ⊢
  cases e3 : extract_date m2 "dt" with
  | mk r3 m3 =>
  rw [e3] at h
  rw [extract_date_append_of n3 e3]
  cases r3 with
  | error e => simp at h
  | ok v3 =>
  simp only [] at h ⊢
  cases e4 : extract_string m3 "tg" with
  | mk r4 m4 =>
  rw [e4] at h
  rw [extract_string_append_of n4 e4]
  cases r4 with
  | error e => simp at h
  | ok v4 =>
  simp only [] at h ⊢
  cases e5 : extract_int m4 "dn" with
  | mk r5 m5 =>
  rw [e5] at h
  rw [extract_int_append_of n5 e5]
  cases r5 with
  | error e => simp at h
  | ok v5 =>
  simp only [] at h ⊢
  cases e6 : extract_int m5 "sd" with
  | mk r6 m6 =>
  rw [e6] at h
  rw [extract_int_append_of n6 e6]
  cases r6 with
  | error e => simp at h
  | ok v6 =>
  simp only [] at h ⊢
  cases e7 : extract_string m6 "is" with
  | mk r7 m7 =>
  rw [e7] at h
  rw [extract_string_append_of n7 e7]
  cases r7 with
  | error e => simp at h
  | ok v7 =>
  simp only [] at h ⊢
  cases e8 : extract_string m7 "ma" with
  | mk r8 m8 =>
  rw [e8] at h
  rw [extract_string_append_of n8 e8]
  cases r8 with
  | error e => simp at h
  | ok v8 =>
  simp only [] at h ⊢
  cases e9 : extract_string m8 "mp" with
  | mk r9 m9 =>
  rw [e9] at h
  rw [extract_string_append_of n9 e9]
  cases r9 with
  | error e => simp at h
  | ok v9 =>
  simp only [] at h ⊢
  cases e10 : extract_string m9 "vp" with
  | mk r10 m10 =>
  rw [e10] at h
  rw [extract_string_append_of n10 e10]
  cases r10 with
  | error e => simp at h
  | ok v10 =>
  simp only [] at h ⊢
  cases hq : m10.isEmpty with
  | false =>
    rw [hq] at h
    simp at h
  | true =>
    have hnil : m10 = [] := (isEmpty_iff_nil m10).mp hq
    subst hnil
    rfl

end GP

namespace GP

/-- The keys `Test::try_from` ever extracts. -/
def testKeys : List String :=
  ["ci", "sc", "co", "tg", "is", "nm", "ma", "tr", "tt", "tc"]

theorem test_keys_sub {m : StrMap} {t : Test}
    (h : Test.tryFrom m = .ok t) : ∀ p ∈ m, p.1 ∈ testKeys := by
  intro p hp
  by_contra hnot
  simp only [testKeys, List.mem_cons, List.not_mem_nil, or_false,
    not_or] at hnot
  obtain ⟨n1, n2, n3, n4, n5, n6, n7, n8, n9, n10⟩ := hnot
  unfold Test.tryFrom at h
  cases e1 : extract_string m "ci" with
  | mk r1 m1 =>
  rw [e1] at h
  cases r1 with
  | error e => simp at h
  | ok v1 =>
  simp only [] at h
  have hp1 : p ∈ m1 := extract_string_mem_of e1 hp n1
  cases e2 : extract_isodatetime m1 "sc" with
  | mk r2 m2 =>
  rw [e2] at h
  cases r2 with
  | error e => simp at h
  | ok v2 =>
  simp only [] at h
  have hp2 : p ∈ m2 := extract_isodatetime_mem_of e2 hp1 n2
  cases e3 : extract_string m2 "co" with
  | mk r3 m3 =>
  rw [e3] at h
  cases r3 with
  | error e => simp at h
  | ok v3 =>
  simp only [] at h
  have hp3 : p ∈ m3 := extract_string_mem_of e3 hp2 n3
  cases e4 : extract_string m3 "tg" with
  | mk r4 m4 =>
  rw [e4] at h
  cases r4 with
  | error e => simp at h
  | ok v4 =>
  simp only [] at h
  have hp4 : p ∈ m4 := extract_string_mem_of e4 hp3 n4
  cases e5 : extract_string m4 "is" with
  | mk r5 m5 =>
  rw [e5] at h
  cases r5 with
  | error e => simp at h
  | ok v5 =>
  simp only [] at h
  have hp5 : p ∈ m5 := extract_string_mem_of e5 hp4 n5
  cases e6 : extract_string m5 "nm" with
  | mk r6 m6 =>
  rw [e6] at h
  have hp6 : p ∈ m6 := extract_string_mem_of e6 hp5 n6
  cases r6 with
  | ok nm =>
    simp only [] at h
    cases eA8 : extract_string m6 "tr" with
    | mk rA8 mA8 =>
    rw [eA8] at h
    cases rA8 with
    | error e => simp at h
    | ok vA8 =>
      simp only [] at h
      have hpA8 : p ∈ mA8 := extract_string_mem_of eA8 hp6 n8
      cases eA9 : extract_string mA8 "tt" with
      | mk rA9 mA9 =>
      rw [eA9] at h
      cases rA9 with
      | error e => simp at h
      | ok vA9 =>
        simp only [] at h
        have hpA9 : p ∈ mA9 := extract_string_mem_of eA9 hpA8 n9
        cases eA10 : extract_string mA9 "tc" with
        | mk rA10 mA10 =>
        rw [eA10] at h
        cases rA10 with
        | error e => simp at h
        | ok vA10 =>
          simp only [] at h
          have hpA10 : p ∈ mA10 := extract_string_mem_of eA10 hpA9 n10
          cases hq : mA10.isEmpty with
          | true =>
            have hnil : mA10 = [] := (isEmpty_iff_nil mA10).mp hq
            rw [hnil] at hpA10
            simp at hpA10
          | false =>
            rw [hq] at h
            simp at h
  | error err6 =>
    simp only [] at h
    cases e7 : extract_string m6 "ma" with
    | mk r7 m7 =>
    rw [e7] at h
    have hp7 : p ∈ m7 := extract_string_mem_of e7 hp6 n7
    cases r7 with
    | error err7 => simp at h
    | ok ma =>
      simp only [] at h
      cases eB8 : extract_string m7 "tr" with
      | mk rB8 mB8 =>
      rw [eB8] at h
      cases rB8 with
      | error e => simp at h
      | ok vB8 =>
        simp only [] at h
        have hpB8 : p ∈ mB8 := extract_string_mem_of eB8 hp7 n8
        cases eB9 : extract_string mB8 "tt" with
        | mk rB9 mB9 =>
        rw [eB9] at h
        cases rB9 with
        | error e => simp at h
        | ok vB9 =>
          simp only [] at h
          have hpB9 : p ∈ mB9 := extract_string_mem_of eB9 hpB8 n9
          cases eB10 : extract_string mB9 "tc" with
          | mk rB10 mB10 =>
          rw [eB10] at h
          cases rB10 with
          | error e => simp at h
          | ok vB10 =>
            simp only [] at h
            have hpB10 : p ∈ mB10 := extract_string_mem_of eB10 hpB9 n10
            cases hq : mB10.isEmpty with
            | true =>
              have hnil : mB10 = [] := (isEmpty_iff_nil mB10).mp hq
              rw [hnil] at hpB10
              simp at hpB10
            | false =>
              rw [hq] at h
              simp at h

theorem test_append {m : StrMap} {t : Test} {j : String} {w : Value}
    (h : Test.tryFrom m = .ok t) (hj : j ∉ testKeys) :
    Test.tryFrom (m ++ [(j, w)]) = .error (.spuriousData [(j, w)]) := by
  simp only [testKeys, List.mem_cons, List.not_mem_nil, or_false,
    not_or] at hj
  obtain ⟨n1, n2, n3, n4, n5, n6, n7, n8, n9, n10⟩ := hj
  unfold Test.tryFrom at h ⊢
  cases e1 : extract_string m "ci" with
  | mk r1 m1 =>
  rw [e1] at h
  rw [extract_string_append_of n1 e1]
  cases r1 with
  | error e => simp at h
  | ok v1 =>
  simp only [] at h ⊢
  cases e2 : extract_isodatetime m1 "sc" with
  | mk r2 m2 =>
  rw [e2] at h
  rw [extract_isodatetime_append_of n2 e2]
  cases r2 with
  | error e => simp at h
  | ok v2 =>
  simp only [] at h ⊢
  cases e3 : extract_string m2 "co" with
  | mk r3 m3 =>
  rw [e3] at h
  rw [extract_string_append_of n3 e3]
  cases r3 with
  | error e => simp at h
  | ok v3 =>
  simp only [] at h ⊢
  cases e4 : extract_string m3 "tg" with
  | mk r4 m4 =>
  rw [e4] at h
  rw [extract_string_append_of n4 e4]
  cases r4 with
  | error e => simp at h
  | ok v4 =>
  simp only [] at h ⊢
  cases e5 : extract_string m4 "is" with
  | mk r5 m5 =>
  rw [e5] at h
  rw [extract_string_append_of n5 e5]
  cases r5 with
  | error e => simp at h
  | ok v5 =>
  simp only [] at h ⊢
  cases e6 : extract_string m5 "nm" with
  | mk r6 m6 =>
  rw [e6] at h
  rw [extract_string_append_of n6 e6]
  cases r6 with
  | ok nm =>
    simp only [] at h ⊢
    cases eA8 : extract_string m6 "tr" with
    | mk rA8 mA8 =>
    rw [eA8] at h
    rw [extract_string_append_of n8 eA8]
    cases rA8 with
    | error e => simp at h
    | ok vA8 =>
      simp only [] at h ⊢
      cases eA9 : extract_string mA8 "tt" with
      | mk rA9 mA9 =>
      rw [eA9] at h
      rw [extract_string_append_of n9 eA9]
      cases rA9 with
      | error e => simp at h
      | ok vA9 =>
        simp only [] at h ⊢
        cases eA10 : extract_string mA9 "tc" with
        | mk rA10 mA10 =>
        rw [eA10] at h
        rw [extract_string_append_of n10 eA10]
        cases rA10 with
        | error e => simp at h
        | ok vA10 =>
          simp only [] at h ⊢
          cases hq : mA10.isEmpty with
          | false =>
            rw [hq] at h
            simp at h
          | true =>
            have hnil : mA10 = [] := (isEmpty_iff_nil mA10).mp hq
            subst hnil
            rfl
  | error err6 =>
    simp only [] at h ⊢
    cases e7 : extract_string m6 "ma" with
    | mk r7 m7 =>
    rw [e7] at h
    rw [extract_string_append_of n7 e7]
    cases r7 with
    | error err7 => simp at h
    | ok ma =>
      simp only [] at h ⊢
      cases eB8 : extract_string m7 "tr" with
      | mk rB8 mB8 =>
      rw [eB8] at h
      rw [extract_string_append_of n8 eB8]
      cases rB8 with
      | error e => simp at h
      | ok vB8 =>
        simp only [] at h ⊢
        cases eB9 : extract_string mB8 "tt" with
        | mk rB9 mB9 =>
        rw [eB9] at h
        rw [extract_string_append_of n9 eB9]
        cases rB9 with
        | error e => simp at h
        | ok vB9 =>
          simp only [] at h ⊢
          cases eB10 : extract_string mB9 "tc" with
          | mk rB10 mB10 =>
          rw [eB10] at h
          rw [extract_string_append_of n10 eB10]
          cases rB10 with
          | error e => simp at h
          | ok vB10 =>
            simp only [] at h ⊢
            cases hq : mB10.isEmpty with
            | false =>
              rw [hq] at h
              simp at h
            | true =>
              have hnil : mB10 = [] := (isEmpty_iff_nil mB10).mp hq
              subst hnil
              rfl

end GP

namespace GP

/-- The keys `GreenPass::try_from` ever extracts from the outer map. -/
def greenPassKeys : List String := ["dob", "ver", "r", "t", "v", "nam"]

theorem greenpass_keys_sub {m : StrMap} {gp : GreenPass}
    (h : GreenPass.tryFrom m = .ok gp) : ∀ p ∈ m, p.1 ∈ greenPassKeys := by
  intro p hp
  by_contra hnot
  simp only [greenPassKeys, List.mem_cons, List.not_mem_nil, or_false,
    not_or] at hnot
  obtain ⟨n1, n2, n3, n4, n5, n6⟩ := hnot
  unfold GreenPass.tryFrom at h
  cases e1 : extract_string m "dob" with
  | mk r1 m1 =>
  rw [e1] at h
  cases r1 with
  | error e => simp at h
  | ok dob =>
  simp only [] at h
  have hp1 : p ∈ m1 := extract_string_mem_of e1 hp n1
  cases e2 : extract_string m1 "ver" with
  | mk r2 m2 =>
  rw [e2] at h
  cases r2 with
  | error e => simp at h
  | ok ver =>
  simp only [] at h
  have hp2 : p ∈ m2 := extract_string_mem_of e2 hp1 n2
  cases eG : gp_entries m2 with
  | mk rG m3 =>
  rw [eG] at h
  cases rG with
  | error e => simp at h
  | ok entries =>
  simp only [] at h
  have hp3 : p ∈ m3 := gp_entries_mem_of eG hp2 n3 n4 n5
  cases eN : extract_string_map m3 "nam" with
  | mk rN m4 =>
  rw [eN] at h
  cases rN with
  | error e => simp at h
  | ok nam0 =>
  simp only [] at h
  have hp4 : p ∈ m4 := extract_string_map_mem_of eN hp3 n6
  cases f1 : extract_string nam0 "fn" with
  | mk s1 nam1 =>
  rw [f1] at h
  cases s1 with
  | error e => simp at h
  | ok surname =>
  simp only [] at h
  cases f2 : extract_string nam1 "gn" with
  | mk s2 nam2 =>
  rw [f2] at h
  cases s2 with
  | error e => simp at h
  | ok givenname =>
  simp only [] at h
  cases f3 : extract_string nam2 "fnt" with
  | mk s3 nam3 =>
  rw [f3] at h
  cases s3 with
  | error e => simp at h
  | ok std_surname =>
  simp only [] at h
  cases f4 : extract_string nam3 "gnt" with
  | mk s4 nam4 =>
  rw [f4] at h
  cases s4 with
  | error e => simp at h
  | ok std_givenname =>
  simp only [] at h
  cases hq : m4.isEmpty with
  | true =>
    have hnil : m4 = [] := (isEmpty_iff_nil m4).mp hq
    rw [hnil] at hp4
    simp at hp4
  | false =>
    rw [hq] at h
    simp at h

theorem greenpass_append {m : StrMap} {gp : GreenPass} {j : String}
    {w : Value} (h : GreenPass.tryFrom m = .ok gp) (hj : j ∉ greenPassKeys) :
    GreenPass.tryFrom (m ++ [(j, w)]) = .error (.spuriousData [(j, w)]) := by
  simp only [greenPassKeys, List.mem_cons, List.not_mem_nil, or_false,
    not_or] at hj
  obtain ⟨n1, n2, n3, n4, n5, n6⟩ := hj
  unfold GreenPass.tryFrom at h ⊢
  cases e1 : extract_string m "dob" with
  | mk r1 m1 =>
  rw [e1] at h
  rw [extract_string_append_of n1 e1]
  cases r1 with
  | error e => simp at h
  | ok dob =>
  simp only [] at h ⊢
  cases e2 : extract_string m1 "ver" with
  | mk r2 m2 =>
  rw [e2] at h
  rw [extract_string_append_of n2 e2]
  cases r2 with
  | error e => simp at h
  | ok ver =>
  simp only [] at h ⊢
  cases eG : gp_entries m2 with
  | mk rG m3 =>
  rw [eG] at h
  rw [gp_entries_append_of n3 n4 n5 eG]
  cases rG with
  | error e => simp at h
  | ok entries =>
  simp only [] at h ⊢
  cases eN : extract_string_map m3 "nam" with
  | mk rN m4 =>
  rw [eN] at h
  rw [extract_string_map_append_of n6 eN]
  cases rN with
  | error e => simp at h
  | ok nam0 =>
  simp only [] at h ⊢
  cases f1 : extract_string nam0 "fn" with
  | mk s1 nam1 =>
  rw [f1] at h
  cases s1 with
  | error e => simp at h
  | ok surname =>
  simp only [] at h ⊢
  cases f2 : extract_string nam1 "gn" with
  | mk s2 nam2 =>
  rw [f2] at h
  cases s2 with
  | error e => simp at h
  | ok givenname =>
  simp only [] at h ⊢
  cases f3 : extract_string nam2 "fnt" with
  | mk s3 nam3 =>
  rw [f3] at h
  cases s3 with
  | error e => simp at h
  | ok std_surname =>
  simp only [] at h ⊢
  cases f4 : extract_string nam3 "gnt" with
  | mk s4 nam4 =>
  rw [f4] at h
  cases s4 with
  | error e => simp at h
  | ok std_givenname =>
  simp only [] at h ⊢
  cases hq : m4.isEmpty with
  | false =>
    rw [hq] at h
    simp at h
  | true =>
    have hnil : m4 = [] := (isEmpty_iff_nil m4).mp hq
    subst hnil
    rfl

end GP

namespace GP

/-! `TestName` selection facts (the `nm`-then-`ma` attempt chain). -/

theorem test_ok_nm {m : StrMap} {t : Test} {s : String}
    (h : Test.tryFrom m = .ok t) (hnm : slookup m "nm" = some (.text s)) :
    t.name = .NAAT s := by
  unfold Test.tryFrom at h
  cases e1 : extract_string m "ci" with
  | mk r1 m1 =>
  rw [e1] at h
  cases r1 with
  | error e => simp at h
  | ok v1 =>
  simp only [] at h
  have hnm1 : slookup m1 "nm" = slookup m "nm" := by
    rw [extract_string_lookup_of e1 (by decide)]
  cases e2 : extract_isodatetime m1 "sc" with
  | mk r2 m2 =>
  rw [e2] at h
  cases r2 with
  | error e => simp at h
  | ok v2 =>
  simp only [] at h
  have hnm2 : slookup m2 "nm" = slookup m "nm" := by
    rw [extract_isodatetime_lookup_of e2 (by decide)]
    exact hnm1
  cases e3 : extract_string m2 "co" with
  | mk r3 m3 =>
  rw [e3] at h
  cases r3 with
  | error e => simp at h
  | ok v3 =>
  simp only [] at h
  have hnm3 : slookup m3 "nm" = slookup m "nm" := by
    rw [extract_string_lookup_of e3 (by decide)]
    exact hnm2
  cases e4 : extract_string m3 "tg" with
  | mk r4 m4 =>
  rw [e4] at h
  cases r4 with
  | error e => simp at h
  | ok v4 =>
  simp only [] at h
  have hnm4 : slookup m4 "nm" = slookup m "nm" := by
    rw [extract_string_lookup_of e4 (by decide)]
    exact hnm3
  cases e5 : extract_string m4 "is" with
  | mk r5 m5 =>
  rw [e5] at h
  cases r5 with
  | error e => simp at h
  | ok v5 =>
  simp only [] at h
  have hnm5 : slookup m5 "nm" = slookup m "nm" := by
    rw [extract_string_lookup_of e5 (by decide)]
    exact hnm4
  rw [extract_string_some (hnm5.trans hnm)] at h
  simp only [] at h
  cases eA8 : extract_string (sremove m5 "nm") "tr" with
  | mk rA8 mA8 =>
  rw [eA8] at h
  cases rA8 with
  | error e => simp at h
  | ok vA8 =>
    simp only [] at h
    cases eA9 : extract_string mA8 "tt" with
    | mk rA9 mA9 =>
    rw [eA9] at h
    cases rA9 with
    | error e => simp at h
    | ok vA9 =>
      simp only [] at h
      cases eA10 : extract_string mA9 "tc" with
      | mk rA10 mA10 =>
      rw [eA10] at h
      cases rA10 with
      | error e => simp at h
      | ok vA10 =>
        simp only [] at h
        cases hq : mA10.isEmpty with
        | false =>
          rw [hq] at h
          simp at h
        | true =>
          rw [hq] at h
          simp only [if_pos] at h
          simp only [Except.ok.injEq] at h
          subst h
          rfl

theorem test_ok_rat {m : StrMap} {t : Test} {d : String}
    (h : Test.tryFrom m = .ok t) (hnm : slookup m "nm" = none)
    (hma : slookup m "ma" = some (.text d)) : t.name = .RAT d := by
  unfold Test.tryFrom at h
  cases e1 : extract_string m "ci" with
  | mk r1 m1 =>
  rw [e1] at h
  cases r1 with
  | error e => simp at h
  | ok v1 =>
  simp only [] at h
  have hnm1 : slookup m1 "nm" = slookup m "nm" := by
    rw [extract_string_lookup_of e1 (by decide)]
  have hma1 : slookup m1 "ma" = slookup m "ma" := by
    rw [extract_string_lookup_of e1 (by decide)]
  cases e2 : extract_isodatetime m1 "sc" with
  | mk r2 m2 =>
  rw [e2] at h
  cases r2 with
  | error e => simp at h
  | ok v2 =>
  simp only [] at h
  have hnm2 : slookup m2 "nm" = slookup m "nm" := by
    rw [extract_isodatetime_lookup_of e2 (by decide)]
    exact hnm1
  have hma2 : slookup m2 "ma" = slookup m "ma" := by
    rw [extract_isodatetime_lookup_of e2 (by decide)]
    exact hma1
  cases e3 : extract_string m2 "co" with
  | mk r3 m3 =>
  rw [e3] at h
  cases r3 with
  | error e => simp at h
  | ok v3 =>
  simp only [] at h
  have hnm3 : slookup m3 "nm" = slookup m "nm" := by
    rw [extract_string_lookup_of e3 (by decide)]
    exact hnm2
  have hma3 : slookup m3 "ma" = slookup m "ma" := by
    rw [extract_string_lookup_of e3 (by decide)]
    exact hma2
  cases e4 : extract_string m3 "tg" with
  | mk r4 m4 =>
  rw [e4] at h
  cases r4 with
  | error e => simp at h
  | ok v4 =>
  simp only [] at h
  have hnm4 : slookup m4 "nm" = slookup m "nm" := by
    rw [extract_string_lookup_of e4 (by decide)]
    exact hnm3
  have hma4 : slookup m4 "ma" = slookup m "ma" := by
    rw [extract_string_lookup_of e4 (by decide)]
    exact hma3
  cases e5 : extract_string m4 "is" with
  | mk r5 m5 =>
  rw [e5] at h
  cases r5 with
  | error e => simp at h
  | ok v5 =>
  simp only [] at h
  have hnm5 : slookup m5 "nm" = slookup m "nm" := by
    rw [extract_string_lookup_of e5 (by decide)]
    exact hnm4
  have hma5 : slookup m5 "ma" = slookup m "ma" := by
    rw [extract_string_lookup_of e5 (by decide)]
    exact hma4
  rw [extract_string_none (hnm5.trans hnm)] at h
  simp only [] at h
  rw [extract_string_some (hma5.trans hma)] at h
  simp only [] at h
  cases eB8 : extract_string (sremove m5 "ma") "tr" with
  | mk rB8 mB8 =>
  rw [eB8] at h
  cases rB8 with
  | error e => simp at h
  | ok vB8 =>
    simp only [] at h
    cases eB9 : extract_string mB8 "tt" with
    | mk rB9 mB9 =>
    rw [eB9] at h
    cases rB9 with
    | error e => simp at h
    | ok vB9 =>
      simp only [] at h
      cases eB10 : extract_string mB9 "tc" with
      | mk rB10 mB10 =>
      rw [eB10] at h
      cases rB10 with
      | error e => simp at h
      | ok vB10 =>
        simp only [] at h
        cases hq : mB10.isEmpty with
        | false =>
          rw [hq] at h
          simp at h
        | true =>
          rw [hq] at h
          simp only [if_pos] at h
          simp only [Except.ok.injEq] at h
          subst h
          rfl

end GP

namespace GP

theorem test_missing_nm_ma {m : StrMap} {ci sc co tg iss : String}
    {ts : DateTimeFO}
    (hci : slookup m "ci" = some (.text ci))
    (hsc : slookup m "sc" = some (.text sc))
    (hts : parse_isodatetime sc = some ts)
    (hco : slookup m "co" = some (.text co))
    (htg : slookup m "tg" = some (.text tg))
    (his : slookup m "is" = some (.text iss))
    (hnm : slookup m "nm" = none) (hma : slookup m "ma" = none) :
    Test.tryFrom m = .error (.missingKey "ma or nm in test") := by
  have hsc1 : slookup (sremove m "ci") "sc" = some (.text sc) := by
    rw [slookup_sremove_ne _ "ci" _ (by decide)]; exact hsc
  have hco2 : slookup (sremove (sremove m "ci") "sc") "co" =
      some (.text co) := by
    rw [slookup_sremove_ne _ "sc" _ (by decide),
        slookup_sremove_ne _ "ci" _ (by decide)]
    exact hco
  have htg3 : slookup (sremove (sremove (sremove m "ci") "sc") "co") "tg" =
      some (.text tg) := by
    rw [slookup_sremove_ne _ "co" _ (by decide),
        slookup_sremove_ne _ "sc" _ (by decide),
        slookup_sremove_ne _ "ci" _ (by decide)]
    exact htg
  have his4 : slookup (sremove (sremove (sremove (sremove m "ci") "sc") "co")
      "tg") "is" = some (.text iss) := by
    rw [slookup_sremove_ne _ "tg" _ (by decide),
        slookup_sremove_ne _ "co" _ (by decide),
        slookup_sremove_ne _ "sc" _ (by decide),
        slookup_sremove_ne _ "ci" _ (by decide)]
    exact his
  have hnm5 : slookup (sremove (sremove (sremove (sremove (sremove m "ci")
      "sc") "co") "tg") "is") "nm" = none := by
    rw [slookup_sremove_ne _ "is" _ (by decide),
        slookup_sremove_ne _ "tg" _ (by decide),
        slookup_sremove_ne _ "co" _ (by decide),
        slookup_sremove_ne _ "sc" _ (by decide),
        slookup_sremove_ne _ "ci" _ (by decide)]
    exact hnm
  have hma5 : slookup (sremove (sremove (sremove (sremove (sremove m "ci")
      "sc") "co") "tg") "is") "ma" = none := by
    rw [slookup_sremove_ne _ "is" _ (by decide),
        slookup_sremove_ne _ "tg" _ (by decide),
        slookup_sremove_ne _ "co" _ (by decide),
        slookup_sremove_ne _ "sc" _ (by decide),
        slookup_sremove_ne _ "ci" _ (by decide)]
    exact hma
  unfold Test.tryFrom
  rw [extract_string_some hci]
  simp only []
  rw [extract_isodatetime_some hsc1 hts]
  simp only []
  rw [extract_string_some hco2]
  simp only []
  rw [extract_string_some htg3]
  simp only []
  rw [extract_string_some his4]
  simp only []
  rw [extract_string_none hnm5]
  simp only []
  rw [extract_string_none hma5]

theorem greenpass_missing_rtv {m : StrMap} {dob ver : String}
    (hdob : slookup m "dob" = some (.text dob))
    (hver : slookup m "ver" = some (.text ver))
    (hr : ∀ xs, slookup m "r" ≠ some (.array xs))
    (ht : ∀ xs, slookup m "t" ≠ some (.array xs))
    (hv : ∀ xs, slookup m "v" ≠ some (.array xs)) :
    GreenPass.tryFrom m =
      .error (.missingKey "r, t or v (the actual data)") := by
  have hver1 : slookup (sremove m "dob") "ver" = some (.text ver) := by
    rw [slookup_sremove_ne _ "dob" _ (by decide)]; exact hver
  have hlook2 : ∀ j : String, j ≠ "dob" → j ≠ "ver" →
      slookup (sremove (sremove m "dob") "ver") j = slookup m j := by
    intro j hj1 hj2
    rw [slookup_sremove_ne _ "ver" _ hj2, slookup_sremove_ne _ "dob" _ hj1]
  unfold GreenPass.tryFrom
  rw [extract_string_some hdob]
  simp only []
  rw [extract_string_some hver1]
  simp only []
  cases hE : gp_entries (sremove (sremove m "dob") "ver") with
  | mk rE m3 =>
  have hfst := gp_entries_all_missing
    (m := sremove (sremove m "dob") "ver")
    (fun xs hc => hr xs (by rw [← hlook2 "r" (by decide) (by decide)]; exact hc))
    (fun xs hc => ht xs (by rw [← hlook2 "t" (by decide) (by decide)]; exact hc))
    (fun xs hc => hv xs (by rw [← hlook2 "v" (by decide) (by decide)]; exact hc))
  rw [hE] at hfst
  simp only [] at hfst
  subst hfst
  simp only []

theorem greenpass_entries_inv {m : StrMap} {gp : GreenPass}
    (h : GreenPass.tryFrom m = .ok gp) :
    (∃ rs, slookup m "r" = some (.array rs) ∧
      recovery_entries rs = .ok gp.entries) ∨
    ((∀ xs, slookup m "r" ≠ some (.array xs)) ∧
      ∃ ts, slookup m "t" = some (.array ts) ∧
        test_entries ts = .ok gp.entries) ∨
    ((∀ xs, slookup m "r" ≠ some (.array xs)) ∧
      (∀ xs, slookup m "t" ≠ some (.array xs)) ∧
      ∃ vs, slookup m "v" = some (.array vs) ∧
        vaccine_entries vs = .ok gp.entries) := by
  unfold GreenPass.tryFrom at h
  cases e1 : extract_string m "dob" with
  | mk r1 m1 =>
  rw [e1] at h
  cases r1 with
  | error e => simp at h
  | ok dob =>
  simp only [] at h
  cases e2 : extract_string m1 "ver" with
  | mk r2 m2 =>
  rw [e2] at h
  cases r2 with
  | error e => simp at h
  | ok ver =>
  simp only [] at h
  have hlook : ∀ j : String, j ≠ "dob" → j ≠ "ver" →
      slookup m2 j = slookup m j := by
    intro j hj1 hj2
    rw [extract_string_lookup_of e2 hj2, extract_string_lookup_of e1 hj1]
  cases eG : gp_entries m2 with
  | mk rG m3 =>
  rw [eG] at h
  cases rG with
  | error e => simp at h
  | ok entries =>
  simp only [] at h
  have hcases := gp_entries_cases eG
  cases eN : extract_string_map m3 "nam" with
  | mk rN m4 =>
  rw [eN] at h
  cases rN with
  | error e => simp at h
  | ok nam0 =>
  simp only [] at h
  cases f1 : extract_string nam0 "fn" with
  | mk s1 nam1 =>
  rw [f1] at h
  cases s1 with
  | error e => simp at h
  | ok surname =>
  simp only [] at h
  cases f2 : extract_string nam1 "gn" with
  | mk s2 nam2 =>
  rw [f2] at h
  cases s2 with
  | error e => simp at h
  | ok givenname =>
  simp only [] at h
  cases f3 : extract_string nam2 "fnt" with
  | mk s3 nam3 =>
  rw [f3] at h
  cases s3 with
  | error e => simp at h
  | ok std_surname =>
  simp only [] at h
  cases f4 : extract_string nam3 "gnt" with
  | mk s4 nam4 =>
  rw [f4] at h
  cases s4 with
  | error e => simp at h
  | ok std_givenname =>
  simp only [] at h
  cases hq : m4.isEmpty with
  | false =>
    rw [hq] at h
    simp at h
  | true =>
    rw [hq] at h
    simp only [if_pos] at h
    simp only [Except.ok.injEq] at h
    subst h
    rcases hcases with ⟨rs, hrs, hrec⟩ | ⟨hnr, ts, hts, htst⟩ |
      ⟨hnr, hnt, vs, hvs, hvac⟩
    · exact Or.inl ⟨rs, by
        rw [← hlook "r" (by decide) (by decide)]; exact hrs, hrec⟩
    · refine Or.inr (Or.inl ⟨?_, ts, by
        rw [← hlook "t" (by decide) (by decide)]; exact hts, htst⟩)
      intro xs hc
      exact hnr xs (by rw [hlook "r" (by decide) (by decide)]; exact hc)
    · refine Or.inr (Or.inr ⟨?_, ?_, vs, by
        rw [← hlook "v" (by decide) (by decide)]; exact hvs, hvac⟩)
      · intro xs hc
        exact hnr xs (by rw [hlook "r" (by decide) (by decide)]; exact hc)
      · intro xs hc
        exact hnt xs (by rw [hlook "t" (by decide) (by decide)]; exact hc)

end GP

namespace GP

theorem vaccine_decodes {m : StrMap} {cid co dts tg iss ma mp vp : String}
    {n s : Int} {d : NDate}
    (hci : slookup m "ci" = some (.text cid))
    (hco : slookup m "co" = some (.text co))
    (hdt : slookup m "dt" = some (.text dts))
    (htg : slookup m "tg" = some (.text tg))
    (hdn : slookup m "dn" = some (.integer n))
    (hsd : slookup m "sd" = some (.integer s))
    (his : slookup m "is" = some (.text iss))
    (hma : slookup m "ma" = some (.text ma))
    (hmp : slookup m "mp" = some (.text mp))
    (hvp : slookup m "vp" = some (.text vp))
    (hd : parse_naive_date dts = some d)
    (hcover : ∀ p ∈ m, p.1 ∈ vaccineKeys) :
    Vaccine.tryFrom m =
      .ok ⟨cid, co, d, tg, i128_to_usize n, i128_to_usize s, iss, ma, mp,
           vp⟩ := by
  have hco1 : slookup (sremove m "ci") "co" = some (.text co) := by
    rw [slookup_sremove_ne _ "ci" _ (by decide)]
    exact hco
  have hdt2 : slookup (sremove (sremove m "ci") "co") "dt" = some (.text dts) := by
    rw [slookup_sremove_ne _ "co" _ (by decide),
        slookup_sremove_ne _ "ci" _ (by decide)]
    exact hdt
  have htg3 : slookup (sremove (sremove (sremove m "ci") "co") "dt") "tg" = some (.text tg) := by
    rw [slookup_sremove_ne _ "dt" _ (by decide),
        slookup_sremove_ne _ "co" _ (by decide),
        slookup_sremove_ne _ "ci" _ (by decide)]
    exact htg
  have hdn4 : slookup (sremove (sremove (sremove (sremove m "ci") "co") "dt") "tg") "dn" = some (.integer n) := by
    rw [slookup_sremove_ne _ "tg" _ (by decide),
        slookup_sremove_ne _ "dt" _ (by decide),
        slookup_sremove_ne _ "co" _ (by decide),
        slookup_sremove_ne _ "ci" _ (by decide)]
    exact hdn
  have hsd5 : slookup (sremove (sremove (sremove (sremove (sremove m "ci") "co") "dt") "tg") "dn") "sd" = some (.integer s) := by
    rw [slookup_sremove_ne _ "dn" _ (by decide),
        slookup_sremove_ne _ "tg" _ (by decide),
        slookup_sremove_ne _ "dt" _ (by decide),
        slookup_sremove_ne _ "co" _ (by decide),
        slookup_sremove_ne _ "ci" _ (by decide)]
    exact hsd
  have his6 : slookup (sremove (sremove (sremove (sremove (sremove (sremove m "ci") "co") "dt") "tg") "dn") "sd") "is" = some (.text iss) := by
    rw [slookup_sremove_ne _ "sd" _ (by decide),
        slookup_sremove_ne _ "dn" _ (by decide),
        slookup_sremove_ne _ "tg" _ (by decide),
        slookup_sremove_ne _ "dt" _ (by decide),
        slookup_sremove_ne _ "co" _ (by decide),
        slookup_sremove_ne _ "ci" _ (by decide)]
    exact his
  have hma7 : slookup (sremove (sremove (sremove (sremove (sremove (sremove (sremove m "ci") "co") "dt") "tg") "dn") "sd") "is") "ma" = some (.text ma) := by
    rw [slookup_sremove_ne _ "is" _ (by decide),
        slookup_sremove_ne _ "sd" _ (by decide),
        slookup_sremove_ne _ "dn" _ (by decide),
        slookup_sremove_ne _ "tg" _ (by decide),
        slookup_sremove_ne _ "dt" _ (by decide),
        slookup_sremove_ne _ "co" _ (by decide),
        slookup_sremove_ne _ "ci" _ (by decide)]
    exact hma
  have hmp8 : slookup (sremove (sremove (sremove (sremove (sremove (sremove (sremove (sremove m "ci") "co") "dt") "tg") "dn") "sd") "is") "ma") "mp" = some (.text mp) := by
    rw [slookup_sremove_ne _ "ma" _ (by decide),
        slookup_sremove_ne _ "is" _ (by decide),
        slookup_sremove_ne _ "sd" _ (by decide),
        slookup_sremove_ne _ "dn" _ (by decide),
        slookup_sremove_ne _ "tg" _ (by decide),
        slookup_sremove_ne _ "dt" _ (by decide),
        slookup_sremove_ne _ "co" _ (by decide),
        slookup_sremove_ne _ "ci" _ (by decide)]
    exact hmp
  have hvp9 : slookup (sremove (sremove (sremove (sremove (sremove (sremove (sremove (sremove (sremove m "ci") "co") "dt") "tg") "dn") "sd") "is") "ma") "mp") "vp" = some (.text vp) := by
    rw [slookup_sremove_ne _ "mp" _ (by decide),
        slookup_sremove_ne _ "ma" _ (by decide),
        slookup_sremove_ne _ "is" _ (by decide),
        slookup_sremove_ne _ "sd" _ (by decide),
        slookup_sremove_ne _ "dn" _ (by decide),
        slookup_sremove_ne _ "tg" _ (by decide),
        slookup_sremove_ne _ "dt" _ (by decide),
        slookup_sremove_ne _ "co" _ (by decide),
        slookup_sremove_ne _ "ci" _ (by decide)]
    exact hvp
  have hempty : (sremove (sremove (sremove (sremove (sremove (sremove (sremove (sremove (sremove (sremove m "ci") "co") "dt") "tg") "dn") "sd") "is") "ma") "mp") "vp") = [] := by
    rw [List.eq_nil_iff_forall_not_mem]
    intro p hp
    simp only [mem_sremove_iff] at hp
    obtain ⟨⟨⟨⟨⟨⟨⟨⟨⟨⟨hpm, q1⟩, q2⟩, q3⟩, q4⟩, q5⟩, q6⟩, q7⟩, q8⟩, q9⟩, q10⟩ := hp
    have hk := hcover p hpm
    simp only [vaccineKeys, List.mem_cons, List.not_mem_nil, or_false] at hk
    rcases hk with e | e | e | e | e | e | e | e | e | e
    · exact q1 e
    · exact q2 e
    · exact q3 e
    · exact q4 e
    · exact q5 e
    · exact q6 e
    · exact q7 e
    · exact q8 e
    · exact q9 e
    · exact q10 e
  unfold Vaccine.tryFrom
  rw [extract_string_some hci]
  simp only []
  rw [extract_string_some hco1]
  simp only []
  rw [extract_date_some hdt2 hd]
  simp only []
  rw [extract_string_some htg3]
  simp only []
  rw [extract_int_some hdn4]
  simp only []
  rw [extract_int_some hsd5]
  simp only []
  rw [extract_string_some his6]
  simp only []
  rw [extract_string_some hma7]
  simp only []
  rw [extract_string_some hmp8]
  simp only []
  rw [extract_string_some hvp9]
  simp only []
  rw [hempty]
  rfl

end GP

namespace GP

/-! Facts about the timestamp conversion and the claims-map stages. -/

theorem wrap_i64_of_small {n : Int} (h1 : -(2 ^ 63) ≤ n) (h2 : n < 2 ^ 63) :
    wrap_i64 n = n := by
  unfold wrap_i64
  simp only [show ((2 : Int) ^ 63) = 9223372036854775808 from by norm_num,
    show ((2 : Int) ^ 64) = 18446744073709551616 from by norm_num] at h1 h2 ⊢
  rw [show (n + 9223372036854775808).emod 18446744073709551616 =
    (n + 9223372036854775808) % 18446744073709551616 from rfl]
  omega

theorem utc_timestamp_in_range {t : Int} (h1 : chrono_min_ts ≤ t)
    (h2 : t ≤ chrono_max_ts) : utc_timestamp t = some t := by
  unfold utc_timestamp
  rw [if_pos ⟨h1, h2⟩]

theorem chrono_range_small :
    -(2 ^ 63) ≤ chrono_min_ts ∧ chrono_max_ts < 2 ^ 63 := by decide

theorem wrap_utc_in_range {t : Int} (h1 : chrono_min_ts ≤ t)
    (h2 : t ≤ chrono_max_ts) : utc_timestamp (wrap_i64 t) = some t := by
  rw [wrap_i64_of_small (le_trans chrono_range_small.1 h1)
    (lt_of_le_of_lt h2 chrono_range_small.2)]
  exact utc_timestamp_in_range h1 h2

/-- Either the issuer key is absent or it holds a text value. -/
def IssuerOk (m : IntMap) : Prop :=
  ilookup m 1 = none ∨ ∃ s, ilookup m 1 = some (.text s)

theorem hc_missing_expires {m : IntMap} (h1 : IssuerOk m)
    (h4 : ilookup m 4 = none) :
    healthCertFromClaims m = .err (.missingKey "expiration timestamp") := by
  unfold healthCertFromClaims
  rcases h1 with h1 | ⟨s, h1⟩ <;> rw [h1] <;> simp only [] <;>
    unfold hc_stage_expires
  · rw [h4]
  · rw [ilookup_iremove_ne m 1 4 (by decide), h4]

theorem hc_missing_created {m : IntMap} {t4 : Int} (h1 : IssuerOk m)
    (h4 : ilookup m 4 = some (.integer t4))
    (h4a : chrono_min_ts ≤ t4) (h4b : t4 ≤ chrono_max_ts)
    (h6 : ilookup m 6 = none) :
    healthCertFromClaims m = .err (.missingKey "issue timestamp") := by
  unfold healthCertFromClaims
  rcases h1 with h1 | ⟨s, h1⟩ <;> rw [h1] <;> simp only [] <;>
    unfold hc_stage_expires
  · rw [h4]
    simp only []
    rw [wrap_utc_in_range h4a h4b]
    simp only []
    unfold hc_stage_created
    rw [ilookup_iremove_ne _ 4 6 (by decide), h6]
  · rw [ilookup_iremove_ne m 1 4 (by decide), h4]
    simp only []
    rw [wrap_utc_in_range h4a h4b]
    simp only []
    unfold hc_stage_created
    rw [ilookup_iremove_ne _ 4 6 (by decide),
        ilookup_iremove_ne m 1 6 (by decide), h6]

theorem hc_missing_hcert {m : IntMap} {t4 t6 : Int} (h1 : IssuerOk m)
    (h4 : ilookup m 4 = some (.integer t4))
    (h4a : chrono_min_ts ≤ t4) (h4b : t4 ≤ chrono_max_ts)
    (h6 : ilookup m 6 = some (.integer t6))
    (h6a : chrono_min_ts ≤ t6) (h6b : t6 ≤ chrono_max_ts)
    (hh : ilookup m (-260) = none) :
    healthCertFromClaims m = .err (.missingKey "hcert") := by
  unfold healthCertFromClaims
  rcases h1 with h1 | ⟨s, h1⟩ <;> rw [h1] <;> simp only [] <;>
    unfold hc_stage_expires
  · rw [h4]
    simp only []
    rw [wrap_utc_in_range h4a h4b]
    simp only []
    unfold hc_stage_created
    rw [ilookup_iremove_ne _ 4 6 (by decide), h6]
    simp only []
    rw [wrap_utc_in_range h6a h6b]
    simp only []
    unfold hc_stage_hcerts
    rw [ilookup_iremove_ne _ 6 (-260) (by decide),
        ilookup_iremove_ne _ 4 (-260) (by decide), hh]
  · rw [ilookup_iremove_ne m 1 4 (by decide), h4]
    simp only []
    rw [wrap_utc_in_range h4a h4b]
    simp only []
    unfold hc_stage_created
    rw [ilookup_iremove_ne _ 4 6 (by decide),
        ilookup_iremove_ne m 1 6 (by decide), h6]
    simp only []
    rw [wrap_utc_in_range h6a h6b]
    simp only []
    unfold hc_stage_hcerts
    rw [ilookup_iremove_ne _ 6 (-260) (by decide),
        ilookup_iremove_ne _ 4 (-260) (by decide),
        ilookup_iremove_ne m 1 (-260) (by decide), hh]

theorem hc_nonmap_hcert {m : IntMap} {t4 t6 : Int} {v : Value}
    (h1 : IssuerOk m)
    (h4 : ilookup m 4 = some (.integer t4))
    (h4a : chrono_min_ts ≤ t4) (h4b : t4 ≤ chrono_max_ts)
    (h6 : ilookup m 6 = some (.integer t6))
    (h6a : chrono_min_ts ≤ t6) (h6b : t6 ≤ chrono_max_ts)
    (hh : ilookup m (-260) = some v) (hv : ∀ kvs, v ≠ .map kvs) :
    healthCertFromClaims m = .err (.invalidFormatFor "hcert") := by
  unfold healthCertFromClaims
  rcases h1 with h1 | ⟨s, h1⟩ <;> rw [h1] <;> simp only [] <;>
    unfold hc_stage_expires
  · rw [h4]
    simp only []
    rw [wrap_utc_in_range h4a h4b]
    simp only []
    unfold hc_stage_created
    rw [ilookup_iremove_ne _ 4 6 (by decide), h6]
    simp only []
    rw [wrap_utc_in_range h6a h6b]
    simp only []
    unfold hc_stage_hcerts
    rw [ilookup_iremove_ne _ 6 (-260) (by decide),
        ilookup_iremove_ne _ 4 (-260) (by decide), hh]
    cases v with
    | map kvs => exact absurd rfl (hv kvs)
    | null => rfl
    | bool b => rfl
    | integer n => rfl
    | float => rfl
    | bytes bs => rfl
    | text s => rfl
    | array xs => rfl
    | tag t w => rfl
  · rw [ilookup_iremove_ne m 1 4 (by decide), h4]
    simp only []
    rw [wrap_utc_in_range h4a h4b]
    simp only []
    unfold hc_stage_created
    rw [ilookup_iremove_ne _ 4 6 (by decide),
        ilookup_iremove_ne m 1 6 (by decide), h6]
    simp only []
    rw [wrap_utc_in_range h6a h6b]
    simp only []
    unfold hc_stage_hcerts
    rw [ilookup_iremove_ne _ 6 (-260) (by decide),
        ilookup_iremove_ne _ 4 (-260) (by decide),
        ilookup_iremove_ne m 1 (-260) (by decide), hh]
    cases v with
    | map kvs => exact absurd rfl (hv kvs)
    | null => rfl
    | bool b => rfl
    | integer n => rfl
    | float => rfl
    | bytes bs => rfl
    | text s => rfl
    | array xs => rfl
    | tag t w => rfl

theorem hc_claims_no_issuer {t1 t2 : Int}
    (h1a : chrono_min_ts ≤ t1) (h1b : t1 ≤ chrono_max_ts)
    (h2a : chrono_min_ts ≤ t2) (h2b : t2 ≤ chrono_max_ts) :
    healthCertFromClaims
        [((-260 : Int), Value.map []), (4, .integer t1), (6, .integer t2)] =
      .ok ⟨none, t2, t1, []⟩ := by
  unfold healthCertFromClaims
  rw [show ilookup [((-260 : Int), Value.map []), (4, .integer t1),
    (6, .integer t2)] 1 = none from rfl]
  simp only []
  unfold hc_stage_expires
  rw [show ilookup [((-260 : Int), Value.map []), (4, .integer t1),
    (6, .integer t2)] 4 = some (.integer t1) from rfl]
  simp only []
  rw [wrap_utc_in_range h1a h1b]
  simp only []
  unfold hc_stage_created
  rw [show ilookup (iremove [((-260 : Int), Value.map []), (4, .integer t1),
    (6, .integer t2)] 4) 6 = some (.integer t2) from rfl]
  simp only []
  rw [wrap_utc_in_range h2a h2b]
  simp only []
  unfold hc_stage_hcerts
  rw [show ilookup (iremove (iremove [((-260 : Int), Value.map []),
    (4, .integer t1), (6, .integer t2)] 4) 6) (-260) =
    some (.map []) from rfl]
  rfl

theorem hc_cwt_len {p : List Nat → Except Error IntMap} {cwt : List Value}
    (h : cwt.length ≠ 4) : healthCertFromCwt p cwt = .err .malformedCWT := by
  rcases cwt with _ | ⟨a, _ | ⟨b, _ | ⟨c, _ | ⟨d, _ | ⟨e, rest⟩⟩⟩⟩⟩
  · rfl
  · rfl
  · rfl
  · rfl
  · exact absurd rfl h
  · rfl

end GP

namespace GP

/-! Variant discriminators for `CertInfo`. -/

/-- True exactly on `Recovery` entries. -/
def CertInfo.isRecovery : CertInfo → Bool
  | .Recovery _ => true
  | _ => false

/-- True exactly on `Test` entries. -/
def CertInfo.isTest : CertInfo → Bool
  | .Test _ => true
  | _ => false

/-- True exactly on `Vaccine` entries. -/
def CertInfo.isVaccine : CertInfo → Bool
  | .Vaccine _ => true
  | _ => false

/-! Concrete sample maps, mirroring the recovery sample of
`tests/validation.rs` and small variations of it. -/

/-- A well-formed recovery entity map (the decoded recovery sample). -/
def recMap : StrMap :=
  [("ci", .text "URN:UVCI:01:AT:858CC18CFCF5965EF82F60E493349AA5#K"),
   ("co", .text "AT"),
   ("df", .text "2021-04-04"),
   ("du", .text "2021-10-04"),
   ("fr", .text "2021-02-20"),
   ("is", .text "Ministry of Health, Austria"),
   ("tg", .text "840539006")]

/-- The `Recovery` value `recMap` decodes to. -/
def rec0 : Recovery :=
  { cert_id := "URN:UVCI:01:AT:858CC18CFCF5965EF82F60E493349AA5#K",
    country := "AT", diagnosed := ⟨2021, 2, 20⟩, disease := "840539006",
    issuer := "Ministry of Health, Austria",
    valid_from := ⟨2021, 4, 4⟩, valid_until := ⟨2021, 10, 4⟩ }

/-- `recMap` as a CBOR map value. -/
def recMapCbor : List (Value × Value) :=
  [(.text "ci", .text "URN:UVCI:01:AT:858CC18CFCF5965EF82F60E493349AA5#K"),
   (.text "co", .text "AT"),
   (.text "df", .text "2021-04-04"),
   (.text "du", .text "2021-10-04"),
   (.text "fr", .text "2021-02-20"),
   (.text "is", .text "Ministry of Health, Austria"),
   (.text "tg", .text "840539006")]

/-- The name sub-map shared by the sample pass maps. -/
def namCbor : Value :=
  .map [(.text "fn", .text "Musterfrau"), (.text "fnt", .text "MUSTERFRAU"),
        (.text "gn", .text "Gabriele"), (.text "gnt", .text "GABRIELE")]

/-- A well-formed pass map whose `r` array holds one recovery entry. -/
def gpMap : StrMap :=
  [("dob", .text "1998-02-26"),
   ("nam", namCbor),
   ("r", .array [.map recMapCbor]),
   ("ver", .text "1.2.1")]

/-- The `GreenPass` value `gpMap` decodes to. -/
def gpRec : GreenPass :=
  { date_of_birth := "1998-02-26", surname := "Musterfrau",
    givenname := "Gabriele", std_surname := "MUSTERFRAU",
    std_givenname := "GABRIELE", ver := "1.2.1",
    entries := [.Recovery rec0] }

/-- `gpMap` with its `r` array emptied. -/
def gpMapEmptyR : StrMap :=
  [("dob", .text "1998-02-26"),
   ("nam", namCbor),
   ("r", .array []),
   ("ver", .text "1.2.1")]

/-- The `GreenPass` value `gpMapEmptyR` decodes to: zero entries. -/
def gpRecEmpty : GreenPass :=
  { date_of_birth := "1998-02-26", surname := "Musterfrau",
    givenname := "Gabriele", std_surname := "MUSTERFRAU",
    std_givenname := "GABRIELE", ver := "1.2.1", entries := [] }

/-- A test entity map carrying a RAT device id under `ma` and a spurious
non-text value under `nm`. -/
def testMapRAT : StrMap :=
  [("ci", .text "URN:UVCI:01:AT:71EE2559DE38C6BF7304FB65A1A451EC#3"),
   ("co", .text "AT"),
   ("is", .text "Ministry of Health, Austria"),
   ("ma", .text "1232"),
   ("nm", .integer 5),
   ("sc", .text "2021-02-20T12:34:56+00:00"),
   ("tc", .text "Testing center Vienna 1"),
   ("tg", .text "840539006"),
   ("tr", .text "260415000"),
   ("tt", .text "LP217198-3")]

/-- The `Test` value `testMapRAT` (and `testMapRAT` minus `nm`) decodes
to. -/
def testRAT : Test :=
  { cert_id := "URN:UVCI:01:AT:71EE2559DE38C6BF7304FB65A1A451EC#3",
    collect_ts := ⟨⟨2021, 2, 20⟩, 12, 34, 56, 0, 0⟩, country := "AT",
    disease := "840539006", issuer := "Ministry of Health, Austria",
    name := .RAT "1232", result := "260415000", test_type := "LP217198-3",
    testing_centre := "Testing center Vienna 1" }

/-- The antigen-test sample map: device id `"1232"` under `ma`, no `nm`. -/
def testMap1232 : StrMap := sremove testMapRAT "nm"

/-- A vaccine entity map with a negative `dn` and a smaller `sd`. -/
def vacMapNeg : StrMap :=
  [("ci", .text "URN:UVCI:01:AT:10807843F94AEE0EE5093FBC254BD813#B"),
   ("co", .text "AT"),
   ("dn", .integer (-1)),
   ("dt", .text "2021-02-18"),
   ("is", .text "Ministry of Health, Austria"),
   ("ma", .text "ORG-100030215"),
   ("mp", .text "EU/1/20/1528"),
   ("sd", .integer 2),
   ("tg", .text "840539006"),
   ("vp", .text "1119349007")]

/-- A test map holding only the five leading fields: both `nm` and `ma`
are absent. -/
def testMapNoName : StrMap :=
  [("ci", .text "x"),
   ("co", .text "AT"),
   ("is", .text "i"),
   ("sc", .text "2021-02-20T12:34:56+00:00"),
   ("tg", .text "840539006")]

end GP

namespace GP

/-! Ok-inversions with the originating lookup, and the remaining
lookup-transport lemmas, used to show that every successfully extracted
field reflects the pair it was extracted from. -/

theorem extract_key_ok {m : StrMap} {k : String} {v : Value} {m' : StrMap}
    (h : extract_key m k = (.ok v, m')) :
    slookup m k = some v ∧ m' = sremove m k := by
  unfold extract_key at h
  cases hl : slookup m k with
  | none => rw [hl] at h; simp at h
  | some v0 =>
    rw [hl] at h
    simp only [Prod.mk.injEq, Except.ok.injEq] at h
    exact ⟨congrArg some h.1, h.2.symm⟩

theorem extract_int_ok {m : StrMap} {k : String} {n : Int} {m' : StrMap}
    (h : extract_int m k = (.ok n, m')) :
    slookup m k = some (.integer n) ∧ m' = sremove m k := by
  obtain ⟨v, hv, htc, hm⟩ :=
    @gen_extract_ok _ (fun v =>
      match v with | .integer r => some r | _ => none) _ _ _ _ h
  cases v <;> simp at htc
  exact ⟨by rw [hv, htc], hm⟩

theorem extract_date_ok {m : StrMap} {k : String} {d : NDate} {m' : StrMap}
    (h : extract_date m k = (.ok d, m')) :
    ∃ s, slookup m k = some (.text s) ∧ parse_naive_date s = some d := by
  unfold extract_date at h
  cases hs : extract_string m k with
  | mk r m1 =>
  rw [hs] at h
  cases r with
  | error e => simp at h
  | ok ds =>
    simp only [] at h
    cases hp : parse_naive_date ds with
    | none => rw [hp] at h; simp at h
    | some d0 =>
      rw [hp] at h
      simp only [Prod.mk.injEq, Except.ok.injEq] at h
      obtain ⟨hd, hm⟩ := h
      subst hd
      exact ⟨ds, (extract_string_ok hs).1, hp⟩

theorem extract_isodatetime_ok {m : StrMap} {k : String} {d : DateTimeFO}
    {m' : StrMap} (h : extract_isodatetime m k = (.ok d, m')) :
    ∃ s, slookup m k = some (.text s) ∧ parse_isodatetime s = some d := by
  unfold extract_isodatetime at h
  cases hs : extract_string m k with
  | mk r m1 =>
  rw [hs] at h
  cases r with
  | error e => simp at h
  | ok ds =>
    simp only [] at h
    cases hp : parse_isodatetime ds with
    | none => rw [hp] at h; simp at h
    | some d0 =>
      rw [hp] at h
      simp only [Prod.mk.injEq, Except.ok.injEq] at h
      obtain ⟨hd, hm⟩ := h
      subst hd
      exact ⟨ds, (extract_string_ok hs).1, hp⟩

theorem extract_string_map_ok {m : StrMap} {k : String} {sm : StrMap}
    {m' : StrMap} (h : extract_string_map m k = (.ok sm, m')) :
    ∃ v, slookup m k = some v ∧ to_strmap k v = .ok sm := by
  unfold extract_string_map at h
  cases hk : extract_key m k with
  | mk r m1 =>
  rw [hk] at h
  cases r with
  | error e => simp at h
  | ok v =>
    simp only [] at h
    cases ht : to_strmap k v with
    | error e => rw [ht] at h; simp at h
    | ok sm0 =>
      rw [ht] at h
      simp only [Prod.mk.injEq, Except.ok.injEq] at h
      obtain ⟨h1, h2⟩ := h
      subst h1
      exact ⟨v, (extract_key_ok hk).1, ht⟩

theorem extract_int_lookup_of {m : StrMap} {k : String}
    {res : Except Error Int} {m1 : StrMap} {j : String}
    (he : extract_int m k = (res, m1)) (hjk : j ≠ k) :
    slookup m1 j = slookup m j := by
  have h2 := slookup_gen_extract (fun v =>
    match v with | .integer r => some r | _ => none) m k j hjk
  rw [show gen_extract (fun v =>
    match v with | .integer r => some r | _ => none) m k = (res, m1)
    from he] at h2
  exact h2

theorem extract_date_lookup_of {m : StrMap} {k : String}
    {res : Except Error NDate} {m1 : StrMap} {j : String}
    (he : extract_date m k = (res, m1)) (hjk : j ≠ k) :
    slookup m1 j = slookup m j := by
  have h2 : slookup (extract_date m k).2 j = slookup m j := by
    rw [extract_date_snd]
    exact slookup_gen_extract _ m k j hjk
  rw [he] at h2
  exact h2

theorem extract_string_map_lookup_of {m : StrMap} {k : String}
    {res : Except Error StrMap} {m1 : StrMap} {j : String}
    (he : extract_string_map m k = (res, m1)) (hjk : j ≠ k) :
    slookup m1 j = slookup m j := by
  have h2 : slookup (extract_string_map m k).2 j = slookup m j := by
    rw [extract_string_map_snd]
    exact slookup_extract_key m k j hjk
  rw [he] at h2
  exact h2

theorem gp_entries_lookup_of {m : StrMap}
    {res : Except Error (List CertInfo)} {m1 : StrMap} {j : String}
    (he : gp_entries m = (res, m1))
    (hr : j ≠ "r") (ht : j ≠ "t") (hv : j ≠ "v") :
    slookup m1 j = slookup m j := by
  unfold gp_entries at he
  cases h1 : extract_array m "r" with
  | mk r1 mA =>
  rw [h1] at he
  have hA : slookup mA j = slookup m j := extract_array_lookup_of h1 hr
  cases r1 with
  | ok rs => simp only [] at he; cases he; exact hA
  | error e1 =>
  simp only [] at he
  cases h2 : extract_array mA "t" with
  | mk r2 mB =>
  rw [h2] at he
  have hB : slookup mB j = slookup mA j := extract_array_lookup_of h2 ht
  cases r2 with
  | ok ts => simp only [] at he; cases he; exact hB.trans hA
  | error e2 =>
  simp only [] at he
  cases h3 : extract_array mB "v" with
  | mk r3 mC =>
  rw [h3] at he
  have hC : slookup mC j = slookup mB j := extract_array_lookup_of h3 hv
  cases r3 with
  | ok vs => simp only [] at he; cases he; exact (hC.trans hB).trans hA
  | error e3 => simp only [] at he; cases he; exact (hC.trans hB).trans hA

end GP

namespace GP

/-- Every field of a decoded `Recovery` reflects the pair it was extracted
from: on success each of the seven keys is present in the input map with the
correct runtime type, and its (parsed) value is the corresponding field. -/
theorem recovery_fields {m : StrMap} {r : Recovery}
    (h : Recovery.tryFrom m = .ok r) :
    slookup m "ci" = some (.text r.cert_id) ∧
    slookup m "co" = some (.text r.country) ∧
    (∃ s, slookup m "fr" = some (.text s) ∧
      parse_naive_date s = some r.diagnosed) ∧
    slookup m "tg" = some (.text r.disease) ∧
    slookup m "is" = some (.text r.issuer) ∧
    (∃ s, slookup m "df" = some (.text s) ∧
      parse_naive_date s = some r.valid_from) ∧
    (∃ s, slookup m "du" = some (.text s) ∧
      parse_naive_date s = some r.valid_until) := by
  unfold Recovery.tryFrom at h
  cases e1 : extract_string m "ci" with
  | mk r1 m1 =>
  rw [e1] at h
  cases r1 with
  | error e => simp at h
  | ok v1 =>
  simp only [] at h
  have hf1 : slookup m "ci" = some (.text v1) := by
    have hx := (extract_string_ok e1).1
    exact hx
  cases e2 : extract_string m1 "co" with
  | mk r2 m2 =>
  rw [e2] at h
  cases r2 with
  | error e => simp at h
  | ok v2 =>
  simp only [] at h
  have hf2 : slookup m "co" = some (.text v2) := by
    have hx := (extract_string_ok e2).1
    rw [extract_string_lookup_of e1 (by decide)] at hx
    exact hx
  cases e3 : extract_date m2 "fr" with
  | mk r3 m3 =>
  rw [e3] at h
  cases r3 with
  | error e => simp at h
  | ok v3 =>
  simp only [] at h
  obtain ⟨s3, hs3, hp3⟩ := extract_date_ok e3
  rw [extract_string_lookup_of e2 (by decide), extract_string_lookup_of e1 (by decide)] at hs3
  cases e4 : extract_string m3 "tg" with
  | mk r4 m4 =>
  rw [e4] at h
  cases r4 with
  | error e => simp at h
  | ok v4 =>
  simp only [] at h
  have hf4 : slookup m "tg" = some (.text v4) := by
    have hx := (extract_string_ok e4).1
    rw [extract_date_lookup_of e3 (by decide), extract_string_lookup_of e2 (by decide), extract_string_lookup_of e1 (by decide)] at hx
    exact hx
  cases e5 : extract_string m4 "is" with
  | mk r5 m5 =>
  rw [e5] at h
  cases r5 with
  | error e => simp at h
  | ok v5 =>
  simp only [] at h
  have hf5 : slookup m "is" = some (.text v5) := by
    have hx := (extract_string_ok e5).1
    rw [extract_string_lookup_of e4 (by decide), extract_date_lookup_of e3 (by decide), extract_string_lookup_of e2 (by decide), extract_string_lookup_of e1 (by decide)] at hx
    exact hx
  cases e6 : extract_date m5 "df" with
  | mk r6 m6 =>
  rw [e6] at h
  cases r6 with
  | error e => simp at h
  | ok v6 =>
  simp only [] at h
  obtain ⟨s6, hs6, hp6⟩ := extract_date_ok e6
  rw [extract_string_lookup_of e5 (by decide), extract_string_lookup_of e4 (by decide), extract_date_lookup_of e3 (by decide), extract_string_lookup_of e2 (by decide), extract_string_lookup_of e1 (by decide)] at hs6
  cases e7 : extract_date m6 "du" with
  | mk r7 m7 =>
  rw [e7] at h
  cases r7 with
  | error e => simp at h
  | ok v7 =>
  simp only [] at h
  obtain ⟨s7, hs7, hp7⟩ := extract_date_ok e7
  rw [extract_date_lookup_of e6 (by decide), extract_string_lookup_of e5 (by decide), extract_string_lookup_of e4 (by decide), extract_date_lookup_of e3 (by decide), extract_string_lookup_of e2 (by decide), extract_string_lookup_of e1 (by decide)] at hs7
  cases hq : m7.isEmpty with
  | false =>
    rw [hq] at h
    simp at h
  | true =>
    rw [hq] at h
    simp only [if_pos] at h
    simp only [Except.ok.injEq] at h
    subst h
    exact ⟨hf1, hf2, ⟨s3, hs3, hp3⟩, hf4, hf5, ⟨s6, hs6, hp6⟩, ⟨s7, hs7, hp7⟩⟩

/-- Every field of a decoded `Vaccine` reflects the pair it was extracted
from; in particular the two dose counts are the encoded integers under `dn`
and `sd` reduced by the `as usize` cast. -/
theorem vaccine_fields {m : StrMap} {vc : Vaccine}
    (h : Vaccine.tryFrom m = .ok vc) :
    slookup m "ci" = some (.text vc.cert_id) ∧
    slookup m "co" = some (.text vc.country) ∧
    (∃ s, slookup m "dt" = some (.text s) ∧
      parse_naive_date s = some vc.date) ∧
    slookup m "tg" = some (.text vc.disease) ∧
    (∃ n, slookup m "dn" = some (.integer n) ∧
      vc.dose_number = i128_to_usize n) ∧
    (∃ n, slookup m "sd" = some (.integer n) ∧
      vc.dose_total = i128_to_usize n) ∧
    slookup m "is" = some (.text vc.issuer) ∧
    slookup m "ma" = some (.text vc.market_auth) ∧
    slookup m "mp" = some (.text vc.product) ∧
    slookup m "vp" = some (.text vc.prophylaxis_kind) := by
  unfold Vaccine.tryFrom at h
  cases e1 : extract_string m "ci" with
  | mk r1 m1 =>
  rw [e1] at h
  cases r1 with
  | error e => simp at h
  | ok v1 =>
  simp only [] at h
  have hf1 : slookup m "ci" = some (.text v1) := by
    have hx := (extract_string_ok e1).1
    exact hx
  cases e2 : extract_string m1 "co" with
  | mk r2 m2 =>
  rw [e2] at h
  cases r2 with
  | error e => simp at h
  | ok v2 =>
  simp only [] at h
  have hf2 : slookup m "co" = some (.text v2) := by
    have hx := (extract_string_ok e2).1
    rw [extract_string_lookup_of e1 (by decide)] at hx
    exact hx
  cases e3 : extract_date m2 "dt" with
  | mk r3 m3 =>
  rw [e3] at h
  cases r3 with
  | error e => simp at h
  | ok v3 =>
  simp only [] at h
  obtain ⟨s3, hs3, hp3⟩ := extract_date_ok e3
  rw [extract_string_lookup_of e2 (by decide), extract_string_lookup_of e1 (by decide)] at hs3
  cases e4 : extract_string m3 "tg" with
  | mk r4 m4 =>
  rw [e4] at h
  cases r4 with
  | error e => simp at h
  | ok v4 =>
  simp only [] at h
  have hf4 : slookup m "tg" = some (.text v4) := by
    have hx := (extract_string_ok e4).1
    rw [extract_date_lookup_of e3 (by decide), extract_string_lookup_of e2 (by decide), extract_string_lookup_of e1 (by decide)] at hx
    exact hx
  cases e5 : extract_int m4 "dn" with
  | mk r5 m5 =>
  rw [e5] at h
  cases r5 with
  | error e => simp at h
  | ok v5 =>
  simp only [] at h
  have hf5 : slookup m "dn" = some (.integer v5) := by
    have hx := (extract_int_ok e5).1
    rw [extract_string_lookup_of e4 (by decide), extract_date_lookup_of e3 (by decide), extract_string_lookup_of e2 (by decide), extract_string_lookup_of e1 (by decide)] at hx
    exact hx
  cases e6 : extract_int m5 "sd" with
  | mk r6 m6 =>
  rw [e6] at h
  cases r6 with
  | error e => simp at h
  | ok v6 =>
  simp only [] at h
  have hf6 : slookup m "sd" = some (.integer v6) := by
    have hx := (extract_int_ok e6).1
    rw [extract_int_lookup_of e5 (by decide), extract_string_lookup_of e4 (by decide), extract_date_lookup_of e3 (by decide), extract_string_lookup_of e2 (by decide), extract_string_lookup_of e1 (by decide)] at hx
    exact hx
  cases e7 : extract_string m6 "is" with
  | mk r7 m7 =>
  rw [e7] at h
  cases r7 with
  | error e => simp at h
  | ok v7 =>
  simp only [] at h
  have hf7 : slookup m "is" = some (.text v7) := by
    have hx := (extract_string_ok e7).1
    rw [extract_int_lookup_of e6 (by decide), extract_int_lookup_of e5 (by decide), extract_string_lookup_of e4 (by decide), extract_date_lookup_of e3 (by decide), extract_string_lookup_of e2 (by decide), extract_string_lookup_of e1 (by decide)] at hx
    exact hx
  cases e8 : extract_string m7 "ma" with
  | mk r8 m8 =>
  rw [e8] at h
  cases r8 with
  | error e => simp at h
  | ok v8 =>
  simp only [] at h
  have hf8 : slookup m "ma" = some (.text v8) := by
    have hx := (extract_string_ok e8).1
    rw [extract_string_lookup_of e7 (by decide), extract_int_lookup_of e6 (by decide), extract_int_lookup_of e5 (by decide), extract_string_lookup_of e4 (by decide), extract_date_lookup_of e3 (by decide), extract_string_lookup_of e2 (by decide), extract_string_lookup_of e1 (by decide)] at hx
    exact hx
  cases e9 : extract_string m8 "mp" with
  | mk r9 m9 =>
  rw [e9] at h
  cases r9 with
  | error e => simp at h
  | ok v9 =>
  simp only [] at h
  have hf9 : slookup m "mp" = some (.text v9) := by
    have hx := (extract_string_ok e9).1
    rw [extract_string_lookup_of e8 (by decide), extract_string_lookup_of e7 (by decide), extract_int_lookup_of e6 (by decide), extract_int_lookup_of e5 (by decide), extract_string_lookup_of e4 (by decide), extract_date_lookup_of e3 (by decide), extract_string_lookup_of e2 (by decide), extract_string_lookup_of e1 (by decide)] at hx
    exact hx
  cases e10 : extract_string m9 "vp" with
  | mk r10 m10 =>
  rw [e10] at h
  cases r10 with
  | error e => simp at h
  | ok v10 =>
  simp only [] at h
  have hf10 : slookup m "vp" = some (.text v10) := by
    have hx := (extract_string_ok e10).1
    rw [extract_string_lookup_of e9 (by decide), extract_string_lookup_of e8 (by decide), extract_string_lookup_of e7 (by decide), extract_int_lookup_of e6 (by decide), extract_int_lookup_of e5 (by decide), extract_string_lookup_of e4 (by decide), extract_date_lookup_of e3 (by decide), extract_string_lookup_of e2 (by decide), extract_string_lookup_of e1 (by decide)] at hx
    exact hx
  cases hq : m10.isEmpty with
  | false =>
    rw [hq] at h
    simp at h
  | true =>
    rw [hq] at h
    simp only [if_pos] at h
    simp only [Except.ok.injEq] at h
    subst h
    exact ⟨hf1, hf2, ⟨s3, hs3, hp3⟩, hf4, ⟨v5, hf5, rfl⟩, ⟨v6, hf6, rfl⟩, hf7, hf8, hf9, hf10⟩

/-- Every non-selection field of a decoded `Test` reflects the pair it was
extracted from (the `nm`/`ma` selection itself is covered separately). -/
theorem test_fields {m : StrMap} {t : Test} (h : Test.tryFrom m = .ok t) :
    slookup m "ci" = some (.text t.cert_id) ∧
    (∃ s, slookup m "sc" = some (.text s) ∧
      parse_isodatetime s = some t.collect_ts) ∧
    slookup m "co" = some (.text t.country) ∧
    slookup m "tg" = some (.text t.disease) ∧
    slookup m "is" = some (.text t.issuer) ∧
    slookup m "tr" = some (.text t.result) ∧
    slookup m "tt" = some (.text t.test_type) ∧
    slookup m "tc" = some (.text t.testing_centre) := by
  unfold Test.tryFrom at h
  cases e1 : extract_string m "ci" with
  | mk r1 m1 =>
  rw [e1] at h
  cases r1 with
  | error e => simp at h
  | ok v1 =>
  simp only [] at h
  have hf1 : slookup m "ci" = some (.text v1) := by
    have hx := (extract_string_ok e1).1
    exact hx
  cases e2 : extract_isodatetime m1 "sc" with
  | mk r2 m2 =>
  rw [e2] at h
  cases r2 with
  | error e => simp at h
  | ok v2 =>
  simp only [] at h
  obtain ⟨s2, hs2, hp2⟩ := extract_isodatetime_ok e2
  rw [extract_string_lookup_of e1 (by decide)] at hs2
  cases e3 : extract_string m2 "co" with
  | mk r3 m3 =>
  rw [e3] at h
  cases r3 with
  | error e => simp at h
  | ok v3 =>
  simp only [] at h
  have hf3 : slookup m "co" = some (.text v3) := by
    have hx := (extract_string_ok e3).1
    rw [extract_isodatetime_lookup_of e2 (by decide), extract_string_lookup_of e1 (by decide)] at hx
    exact hx
  cases e4 : extract_string m3 "tg" with
  | mk r4 m4 =>
  rw [e4] at h
  cases r4 with
  | error e => simp at h
  | ok v4 =>
  simp only [] at h
  have hf4 : slookup m "tg" = some (.text v4) := by
    have hx := (extract_string_ok e4).1
    rw [extract_string_lookup_of e3 (by decide), extract_isodatetime_lookup_of e2 (by decide), extract_string_lookup_of e1 (by decide)] at hx
    exact hx
  cases e5 : extract_string m4 "is" with
  | mk r5 m5 =>
  rw [e5] at h
  cases r5 with
  | error e => simp at h
  | ok v5 =>
  simp only [] at h
  have hf5 : slookup m "is" = some (.text v5) := by
    have hx := (extract_string_ok e5).1
    rw [extract_string_lookup_of e4 (by decide), extract_string_lookup_of e3 (by decide), extract_isodatetime_lookup_of e2 (by decide), extract_string_lookup_of e1 (by decide)] at hx
    exact hx
  cases e6 : extract_string m5 "nm" with
  | mk r6 m6 =>
  rw [e6] at h
  cases r6 with
  | ok nm =>
    simp only [] at h
    cases e8 : extract_string m6 "tr" with
    | mk r8 m8 =>
    rw [e8] at h
    cases r8 with
    | error e => simp at h
    | ok v8 =>
    simp only [] at h
    have hf8 : slookup m "tr" = some (.text v8) := by
      have hx := (extract_string_ok e8).1
      rw [extract_string_lookup_of e6 (by decide), extract_string_lookup_of e5 (by decide), extract_string_lookup_of e4 (by decide), extract_string_lookup_of e3 (by decide), extract_isodatetime_lookup_of e2 (by decide), extract_string_lookup_of e1 (by decide)] at hx
      exact hx
    cases e9 : extract_string m8 "tt" with
    | mk r9 m9 =>
    rw [e9] at h
    cases r9 with
    | error e => simp at h
    | ok v9 =>
    simp only [] at h
    have hf9 : slookup m "tt" = some (.text v9) := by
      have hx := (extract_string_ok e9).1
      rw [extract_string_lookup_of e8 (by decide), extract_string_lookup_of e6 (by decide), extract_string_lookup_of e5 (by decide), extract_string_lookup_of e4 (by decide), extract_string_lookup_of e3 (by decide), extract_isodatetime_lookup_of e2 (by decide), extract_string_lookup_of e1 (by decide)] at hx
      exact hx
    cases e10 : extract_string m9 "tc" with
    | mk r10 m10 =>
    rw [e10] at h
    cases r10 with
    | error e => simp at h
    | ok v10 =>
    simp only [] at h
    have hf10 : slookup m "tc" = some (.text v10) := by
      have hx := (extract_string_ok e10).1
      rw [extract_string_lookup_of e9 (by decide), extract_string_lookup_of e8 (by decide), extract_string_lookup_of e6 (by decide), extract_string_lookup_of e5 (by decide), extract_string_lookup_of e4 (by decide), extract_string_lookup_of e3 (by decide), extract_isodatetime_lookup_of e2 (by decide), extract_string_lookup_of e1 (by decide)] at hx
      exact hx
    cases hq : m10.isEmpty with
    | false =>
      rw [hq] at h
      simp at h
    | true =>
      rw [hq] at h
      simp only [if_pos] at h
      simp only [Except.ok.injEq] at h
      subst h
      exact ⟨hf1, ⟨s2, hs2, hp2⟩, hf3, hf4, hf5, hf8, hf9, hf10⟩
  | error err6 =>
    simp only [] at h
    cases e7 : extract_string m6 "ma" with
    | mk r7 m7 =>
    rw [e7] at h
    cases r7 with
    | error err7 => simp at h
    | ok ma =>
      simp only [] at h
      cases e8 : extract_string m7 "tr" with
      | mk r8 m8 =>
      rw [e8] at h
      cases r8 with
      | error e => simp at h
      | ok v8 =>
      simp only [] at h
      have hf8 : slookup m "tr" = some (.text v8) := by
        have hx := (extract_string_ok e8).1
        rw [extract_string_lookup_of e7 (by decide), extract_string_lookup_of e6 (by decide), extract_string_lookup_of e5 (by decide), extract_string_lookup_of e4 (by decide), extract_string_lookup_of e3 (by decide), extract_isodatetime_lookup_of e2 (by decide), extract_string_lookup_of e1 (by decide)] at hx
        exact hx
      cases e9 : extract_string m8 "tt" with
      | mk r9 m9 =>
      rw [e9] at h
      cases r9 with
      | error e => simp at h
      | ok v9 =>
      simp only [] at h
      have hf9 : slookup m "tt" = some (.text v9) := by
        have hx := (extract_string_ok e9).1
        rw [extract_string_lookup_of e8 (by decide), extract_string_lookup_of e7 (by decide), extract_string_lookup_of e6 (by decide), extract_string_lookup_of e5 (by decide), extract_string_lookup_of e4 (by decide), extract_string_lookup_of e3 (by decide), extract_isodatetime_lookup_of e2 (by decide), extract_string_lookup_of e1 (by decide)] at hx
        exact hx
      cases e10 : extract_string m9 "tc" with
      | mk r10 m10 =>
      rw [e10] at h
      cases r10 with
      | error e => simp at h
      | ok v10 =>
      simp only [] at h
      have hf10 : slookup m "tc" = some (.text v10) := by
        have hx := (extract_string_ok e10).1
        rw [extract_string_lookup_of e9 (by decide), extract_string_lookup_of e8 (by decide), extract_string_lookup_of e7 (by decide), extract_string_lookup_of e6 (by decide), extract_string_lookup_of e5 (by decide), extract_string_lookup_of e4 (by decide), extract_string_lookup_of e3 (by decide), extract_isodatetime_lookup_of e2 (by decide), extract_string_lookup_of e1 (by decide)] at hx
        exact hx
      cases hq : m10.isEmpty with
      | false =>
        rw [hq] at h
        simp at h
      | true =>
        rw [hq] at h
        simp only [if_pos] at h
        simp only [Except.ok.injEq] at h
        subst h
        exact ⟨hf1, ⟨s2, hs2, hp2⟩, hf3, hf4, hf5, hf8, hf9, hf10⟩

end GP

namespace GP

/-- Every non-selection field of a decoded `GreenPass` reflects the pair it
was extracted from: `dob` and `ver` are present as text with the stored
values, and `nam` is present as a value that string-map-coerces to a map
holding the four name fields (the `r`/`t`/`v` selection is covered
separately). -/
theorem greenpass_fields {m : StrMap} {gp : GreenPass}
    (h : GreenPass.tryFrom m = .ok gp) :
    slookup m "dob" = some (.text gp.date_of_birth) ∧
    slookup m "ver" = some (.text gp.ver) ∧
    (∃ v sm, slookup m "nam" = some v ∧ to_strmap "nam" v = .ok sm ∧
      slookup sm "fn" = some (.text gp.surname) ∧
      slookup sm "gn" = some (.text gp.givenname) ∧
      slookup sm "fnt" = some (.text gp.std_surname) ∧
      slookup sm "gnt" = some (.text gp.std_givenname)) := by
  unfold GreenPass.tryFrom at h
  cases e1 : extract_string m "dob" with
  | mk r1 m1 =>
  rw [e1] at h
  cases r1 with
  | error e => simp at h
  | ok dob =>
  simp only [] at h
  have hf1 : slookup m "dob" = some (.text dob) := (extract_string_ok e1).1
  cases e2 : extract_string m1 "ver" with
  | mk r2 m2 =>
  rw [e2] at h
  cases r2 with
  | error e => simp at h
  | ok ver =>
  simp only [] at h
  have hf2 : slookup m "ver" = some (.text ver) := by
    have hx := (extract_string_ok e2).1
    rw [extract_string_lookup_of e1 (by decide)] at hx
    exact hx
  cases eG : gp_entries m2 with
  | mk rG m3 =>
  rw [eG] at h
  cases rG with
  | error e => simp at h
  | ok entries =>
  simp only [] at h
  cases eN : extract_string_map m3 "nam" with
  | mk rN m4 =>
  rw [eN] at h
  cases rN with
  | error e => simp at h
  | ok nam0 =>
  simp only [] at h
  obtain ⟨vN, hvN, htN⟩ := extract_string_map_ok eN
  rw [gp_entries_lookup_of eG (by decide) (by decide) (by decide),
      extract_string_lookup_of e2 (by decide),
      extract_string_lookup_of e1 (by decide)] at hvN
  cases f1 : extract_string nam0 "fn" with
  | mk s1 nam1 =>
  rw [f1] at h
  cases s1 with
  | error e => simp at h
  | ok surname =>
  simp only [] at h
  have hfn : slookup nam0 "fn" = some (.text surname) :=
    (extract_string_ok f1).1
  cases f2 : extract_string nam1 "gn" with
  | mk s2 nam2 =>
  rw [f2] at h
  cases s2 with
  | error e => simp at h
  | ok givenname =>
  simp only [] at h
  have hgn : slookup nam0 "gn" = some (.text givenname) := by
    have hx := (extract_string_ok f2).1
    rw [extract_string_lookup_of f1 (by decide)] at hx
    exact hx
  cases f3 : extract_string nam2 "fnt" with
  | mk s3 nam3 =>
  rw [f3] at h
  cases s3 with
  | error e => simp at h
  | ok std_surname =>
  simp only [] at h
  have hfnt : slookup nam0 "fnt" = some (.text std_surname) := by
    have hx := (extract_string_ok f3).1
    rw [extract_string_lookup_of f2 (by decide),
        extract_string_lookup_of f1 (by decide)] at hx
    exact hx
  cases f4 : extract_string nam3 "gnt" with
  | mk s4 nam4 =>
  rw [f4] at h
  cases s4 with
  | error e => simp at h
  | ok std_givenname =>
  simp only [] at h
  have hgnt : slookup nam0 "gnt" = some (.text std_givenname) := by
    have hx := (extract_string_ok f4).1
    rw [extract_string_lookup_of f3 (by decide),
        extract_string_lookup_of f2 (by decide),
        extract_string_lookup_of f1 (by decide)] at hx
    exact hx
  cases hq : m4.isEmpty with
  | false =>
    rw [hq] at h
    simp at h
  | true =>
    rw [hq] at h
    simp only [if_pos] at h
    simp only [Except.ok.injEq] at h
    subst h
    exact ⟨hf1, hf2, vN, nam0, hvN, htN, hfn, hgn, hfnt, hgnt⟩

end GP

namespace GP

/-- C1: the envelope's signature slot (element 3) and the two header slots
(elements 0 and 1) never influence the decoded `HealthCert`; in particular
two envelopes that differ only in the signature bytes decode identically, so
the result cannot retain the signature's key-identifier bytes, algorithm
code, or raw signature bytes.  This matches `lib.rs`, whose `HealthCert`
struct has no signature field ("excluding metadata and signature, which are
unsupported at the moment"), and contradicts `tests/validation.rs`, which
expects a `signature: Signature` field. -/
theorem c1_signature_discarded
    (parse : List Nat → Except Error IntMap) (a a' b b' payload s s' : Value) :
    healthCertFromCwt parse [a, b, payload, s] =
      healthCertFromCwt parse [a', b', payload, s'] := rfl

/-- C2: the decode is not total — a claims map whose key-4 expiration value
is a huge (or hugely negative) integer makes `Utc.timestamp(ts as i64, 0)`
panic inside `HealthCert::try_from` instead of returning an error. -/
theorem c2_panic_on_large_timestamp :
    healthCertFromClaims [(4, .integer (2 ^ 62))] = .panic ∧
    healthCertFromClaims [(4, .integer (-(2 ^ 62)))] = .panic :=
  ⟨rfl, rfl⟩

/-- C3: the entries of every successfully decoded `GreenPass` are
homogeneous — all `Recovery`, all `Test`, or all `Vaccine`. -/
theorem c3_entries_homogeneous (m : StrMap) (gp : GreenPass)
    (h : GreenPass.tryFrom m = .ok gp) :
    (∀ c ∈ gp.entries, c.isRecovery = true) ∨
    (∀ c ∈ gp.entries, c.isTest = true) ∨
    (∀ c ∈ gp.entries, c.isVaccine = true) := by
  rcases greenpass_entries_inv h with ⟨rs, _, hrec⟩ | ⟨_, ts, _, htst⟩ |
    ⟨_, _, vs, _, hvac⟩
  · refine Or.inl (collect_results_shape ?_ hrec)
    intro a b hab
    obtain ⟨r, rfl⟩ := recovery_entry_shape hab
    rfl
  · refine Or.inr (Or.inl (collect_results_shape ?_ htst))
    intro a b hab
    obtain ⟨t, rfl⟩ := test_entry_shape hab
    rfl
  · refine Or.inr (Or.inr (collect_results_shape ?_ hvac))
    intro a b hab
    obtain ⟨vc, rfl⟩ := vaccine_entry_shape hab
    rfl

/-- C3 witness: the sample pass map decodes with all-Recovery entries. -/
theorem c3_witness :
    (∀ c ∈ gpRec.entries, c.isRecovery = true) ∨
    (∀ c ∈ gpRec.entries, c.isTest = true) ∨
    (∀ c ∈ gpRec.entries, c.isVaccine = true) :=
  c3_entries_homogeneous gpMap gpRec rfl

/-- C4 counterexample: a test map carrying the pair `("nm", Integer 5)` —
present but of the wrong runtime type — decodes successfully to exactly the
same value as the map without that pair: the pair is consumed and silently
ignored, neither converted into a field nor causing an error. -/
theorem c4_counterexample :
    Test.tryFrom testMapRAT = .ok testRAT ∧
    Test.tryFrom (sremove testMapRAT "nm") = .ok testRAT :=
  ⟨rfl, rfl⟩

/-- C4 (amended): decoding never silently drops data except for the
mutually exclusive selection keys.  Part one: a key outside a decoder's
recognised key set always causes a failure — a map containing one never
decodes successfully.  Part two: on success, every recognised non-selection
key is present with the correct runtime type and its (parsed) value is
converted into the corresponding field of the result, so a recognised
non-selection pair of the wrong runtime type always causes an error.  (The
selection keys `r`/`t`/`v` and `nm`/`ma` are the exception forced by the
counterexample: present with the wrong runtime type they are consumed and
silently ignored when a later alternative succeeds.) -/
theorem c4_no_silent_drop :
    ((∀ m gp, GreenPass.tryFrom m = .ok gp → ∀ p ∈ m, p.1 ∈ greenPassKeys) ∧
     (∀ m r, Recovery.tryFrom m = .ok r → ∀ p ∈ m, p.1 ∈ recoveryKeys) ∧
     (∀ m t, Test.tryFrom m = .ok t → ∀ p ∈ m, p.1 ∈ testKeys) ∧
     (∀ m vc, Vaccine.tryFrom m = .ok vc → ∀ p ∈ m, p.1 ∈ vaccineKeys)) ∧
    ((∀ m gp, GreenPass.tryFrom m = .ok gp →
      slookup m "dob" = some (.text gp.date_of_birth) ∧
      slookup m "ver" = some (.text gp.ver) ∧
      (∃ v sm, slookup m "nam" = some v ∧ to_strmap "nam" v = .ok sm ∧
        slookup sm "fn" = some (.text gp.surname) ∧
        slookup sm "gn" = some (.text gp.givenname) ∧
        slookup sm "fnt" = some (.text gp.std_surname) ∧
        slookup sm "gnt" = some (.text gp.std_givenname))) ∧
     (∀ m r, Recovery.tryFrom m = .ok r →
      slookup m "ci" = some (.text r.cert_id) ∧
      slookup m "co" = some (.text r.country) ∧
      (∃ s, slookup m "fr" = some (.text s) ∧
        parse_naive_date s = some r.diagnosed) ∧
      slookup m "tg" = some (.text r.disease) ∧
      slookup m "is" = some (.text r.issuer) ∧
      (∃ s, slookup m "df" = some (.text s) ∧
        parse_naive_date s = some r.valid_from) ∧
      (∃ s, slookup m "du" = some (.text s) ∧
        parse_naive_date s = some r.valid_until)) ∧
     (∀ m t, Test.tryFrom m = .ok t →
      slookup m "ci" = some (.text t.cert_id) ∧
      (∃ s, slookup m "sc" = some (.text s) ∧
        parse_isodatetime s = some t.collect_ts) ∧
      slookup m "co" = some (.text t.country) ∧
      slookup m "tg" = some (.text t.disease) ∧
      slookup m "is" = some (.text t.issuer) ∧
      slookup m "tr" = some (.text t.result) ∧
      slookup m "tt" = some (.text t.test_type) ∧
      slookup m "tc" = some (.text t.testing_centre)) ∧
     (∀ m vc, Vaccine.tryFrom m = .ok vc →
      slookup m "ci" = some (.text vc.cert_id) ∧
      slookup m "co" = some (.text vc.country) ∧
      (∃ s, slookup m "dt" = some (.text s) ∧
        parse_naive_date s = some vc.date) ∧
      slookup m "tg" = some (.text vc.disease) ∧
      (∃ n, slookup m "dn" = some (.integer n) ∧
        vc.dose_number = i128_to_usize n) ∧
      (∃ n, slookup m "sd" = some (.integer n) ∧
        vc.dose_total = i128_to_usize n) ∧
      slookup m "is" = some (.text vc.issuer) ∧
      slookup m "ma" = some (.text vc.market_auth) ∧
      slookup m "mp" = some (.text vc.product) ∧
      slookup m "vp" = some (.text vc.prophylaxis_kind))) :=
  ⟨⟨fun _ _ h => greenpass_keys_sub h, fun _ _ h => recovery_keys_sub h,
    fun _ _ h => test_keys_sub h, fun _ _ h => vaccine_keys_sub h⟩,
   ⟨fun _ _ h => greenpass_fields h, fun _ _ h => recovery_fields h,
    fun _ _ h => test_fields h, fun _ _ h => vaccine_fields h⟩⟩

/-- C4 witness: instantiating both halves of the amended claim on the
sample recovery map: its head pair's key is recognised, and the `ci` pair
was converted into the certificate-id field. -/
theorem c4_witness :
    ("ci", Value.text "URN:UVCI:01:AT:858CC18CFCF5965EF82F60E493349AA5#K").1
      ∈ recoveryKeys ∧
    slookup recMap "ci" = some (.text rec0.cert_id) :=
  ⟨c4_no_silent_drop.1.2.1 recMap rec0 rfl _ (List.mem_cons_self _ _),
   (c4_no_silent_drop.2.2.1 recMap rec0 rfl).1⟩

/-- C5 counterexample: a pass map whose `r` array is present but empty
decodes successfully to a `GreenPass` with zero entries — the decoder does
not enforce non-emptiness. -/
theorem c5_counterexample :
    GreenPass.tryFrom gpMapEmptyR = .ok gpRecEmpty ∧ gpRecEmpty.entries = [] :=
  ⟨rfl, rfl⟩

/-- C5 (amended): the entries sequence of a decoded `GreenPass` has exactly
one entry per element of the selected source array — and is therefore empty
exactly when the selected array is empty. -/
theorem c5_entries_length :
    (∀ m gp rs, slookup m "r" = some (.array rs) →
      GreenPass.tryFrom m = .ok gp → gp.entries.length = rs.length) ∧
    (∀ m gp ts, (∀ xs, slookup m "r" ≠ some (.array xs)) →
      slookup m "t" = some (.array ts) →
      GreenPass.tryFrom m = .ok gp → gp.entries.length = ts.length) ∧
    (∀ m gp vs, (∀ xs, slookup m "r" ≠ some (.array xs)) →
      (∀ xs, slookup m "t" ≠ some (.array xs)) →
      slookup m "v" = some (.array vs) →
      GreenPass.tryFrom m = .ok gp → gp.entries.length = vs.length) := by
  refine ⟨?_, ?_, ?_⟩
  · intro m gp rs hr h
    rcases greenpass_entries_inv h with ⟨rs', hrs', hrec⟩ | ⟨hnr, _⟩ |
      ⟨hnr, _⟩
    · rw [hr] at hrs'
      simp only [Option.some.injEq, Value.array.injEq] at hrs'
      subst hrs'
      exact collect_results_length hrec
    · exact absurd hr (hnr rs)
    · exact absurd hr (hnr rs)
  · intro m gp ts hnr ht h
    rcases greenpass_entries_inv h with ⟨rs', hrs', _⟩ | ⟨_, ts', hts', htst⟩ |
      ⟨_, hnt, _⟩
    · exact absurd hrs' (hnr rs')
    · rw [ht] at hts'
      simp only [Option.some.injEq, Value.array.injEq] at hts'
      subst hts'
      exact collect_results_length htst
    · exact absurd ht (hnt ts)
  · intro m gp vs hnr hnt hv h
    rcases greenpass_entries_inv h with ⟨rs', hrs', _⟩ | ⟨_, ts', hts', _⟩ |
      ⟨_, _, vs', hvs', hvac⟩
    · exact absurd hrs' (hnr rs')
    · exact absurd hts' (hnt ts')
    · rw [hv] at hvs'
      simp only [Option.some.injEq, Value.array.injEq] at hvs'
      subst hvs'
      exact collect_results_length hvac

/-- C5 witness: the empty-`r` pass map yields zero entries for the empty
array. -/
theorem c5_witness : gpRecEmpty.entries.length = ([] : List Value).length :=
  c5_entries_length.1 gpMapEmptyR gpRecEmpty [] rfl rfl

/-- C6: for each of the four entity decoders, extending a successfully
decoding map with one additional pair whose key the decoder does not
recognise makes decoding fail with the spurious-leftover-data error carrying
exactly that pair. -/
theorem c6_leftover_pair :
    (∀ m gp j w, GreenPass.tryFrom m = .ok gp → j ∉ greenPassKeys →
      GreenPass.tryFrom (m ++ [(j, w)]) =
        .error (.spuriousData [(j, w)])) ∧
    (∀ m r j w, Recovery.tryFrom m = .ok r → j ∉ recoveryKeys →
      Recovery.tryFrom (m ++ [(j, w)]) = .error (.spuriousData [(j, w)])) ∧
    (∀ m t j w, Test.tryFrom m = .ok t → j ∉ testKeys →
      Test.tryFrom (m ++ [(j, w)]) = .error (.spuriousData [(j, w)])) ∧
    (∀ m vc j w, Vaccine.tryFrom m = .ok vc → j ∉ vaccineKeys →
      Vaccine.tryFrom (m ++ [(j, w)]) = .error (.spuriousData [(j, w)])) :=
  ⟨fun _ _ _ _ h hj => greenpass_append h hj,
   fun _ _ _ _ h hj => recovery_append h hj,
   fun _ _ _ _ h hj => test_append h hj,
   fun _ _ _ _ h hj => vaccine_append h hj⟩

/-- C6 witness: one concrete instantiation per decoder. -/
theorem c6_witness :
    GreenPass.tryFrom (gpMap ++ [("xx", .integer 9)]) =
      .error (.spuriousData [("xx", .integer 9)]) ∧
    Recovery.tryFrom (recMap ++ [("xx", .integer 9)]) =
      .error (.spuriousData [("xx", .integer 9)]) ∧
    Test.tryFrom (testMapRAT ++ [("xx", .integer 9)]) =
      .error (.spuriousData [("xx", .integer 9)]) ∧
    Vaccine.tryFrom (vacMapNeg ++ [("xx", .integer 9)]) =
      .error (.spuriousData [("xx", .integer 9)]) :=
  ⟨c6_leftover_pair.1 gpMap gpRec "xx" (.integer 9) rfl (by decide),
   c6_leftover_pair.2.1 recMap rec0 "xx" (.integer 9) rfl (by decide),
   c6_leftover_pair.2.2.1 testMapRAT testRAT "xx" (.integer 9) rfl
     (by decide),
   c6_leftover_pair.2.2.2 vacMapNeg
     ⟨"URN:UVCI:01:AT:10807843F94AEE0EE5093FBC254BD813#B", "AT",
      ⟨2021, 2, 18⟩, "840539006", i128_to_usize (-1), i128_to_usize 2,
      "Ministry of Health, Austria", "ORG-100030215", "EU/1/20/1528",
      "1119349007"⟩ "xx" (.integer 9) rfl (by decide)⟩

/-- C7 counterexample: the empty map has none of the `r`/`t`/`v` keys, yet
decoding fails with `MissingKey "dob"` — not with the missing-key error
naming the three alternatives (`dob` is extracted first). -/
theorem c7_counterexample :
    GreenPass.tryFrom [] = .error (.missingKey "dob") ∧
    "dob" ≠ "r, t or v (the actual data)" :=
  ⟨rfl, by decide⟩

/-- C7 (amended): entry selection follows the fixed priority `r`, then `t`,
then `v` — the first key present as an array determines the entries, and the
sibling arrays are never parsed; and for every map whose `dob` and `ver`
fields are present as strings (they are extracted first) and in which none
of the three keys is an array, decoding fails with the missing-key error
naming all three alternatives. -/
theorem c7_priority :
    (∀ m gp rs, slookup m "r" = some (.array rs) →
      GreenPass.tryFrom m = .ok gp → recovery_entries rs = .ok gp.entries) ∧
    (∀ m gp ts, (∀ xs, slookup m "r" ≠ some (.array xs)) →
      slookup m "t" = some (.array ts) →
      GreenPass.tryFrom m = .ok gp → test_entries ts = .ok gp.entries) ∧
    (∀ m gp vs, (∀ xs, slookup m "r" ≠ some (.array xs)) →
      (∀ xs, slookup m "t" ≠ some (.array xs)) →
      slookup m "v" = some (.array vs) →
      GreenPass.tryFrom m = .ok gp → vaccine_entries vs = .ok gp.entries) ∧
    (∀ m dob ver, slookup m "dob" = some (.text dob) →
      slookup m "ver" = some (.text ver) →
      (∀ xs, slookup m "r" ≠ some (.array xs)) →
      (∀ xs, slookup m "t" ≠ some (.array xs)) →
      (∀ xs, slookup m "v" ≠ some (.array xs)) →
      GreenPass.tryFrom m =
        .error (.missingKey "r, t or v (the actual data)")) := by
  refine ⟨?_, ?_, ?_, ?_⟩
  · intro m gp rs hr h
    rcases greenpass_entries_inv h with ⟨rs', hrs', hrec⟩ | ⟨hnr, _⟩ |
      ⟨hnr, _⟩
    · rw [hr] at hrs'
      simp only [Option.some.injEq, Value.array.injEq] at hrs'
      subst hrs'
      exact hrec
    · exact absurd hr (hnr rs)
    · exact absurd hr (hnr rs)
  · intro m gp ts hnr ht h
    rcases greenpass_entries_inv h with ⟨rs', hrs', _⟩ | ⟨_, ts', hts', htst⟩ |
      ⟨_, hnt, _⟩
    · exact absurd hrs' (hnr rs')
    · rw [ht] at hts'
      simp only [Option.some.injEq, Value.array.injEq] at hts'
      subst hts'
      exact htst
    · exact absurd ht (hnt ts)
  · intro m gp vs hnr hnt hv h
    rcases greenpass_entries_inv h with ⟨rs', hrs', _⟩ | ⟨_, ts', hts', _⟩ |
      ⟨_, _, vs', hvs', hvac⟩
    · exact absurd hrs' (hnr rs')
    · exact absurd hts' (hnt ts')
    · rw [hv] at hvs'
      simp only [Option.some.injEq, Value.array.injEq] at hvs'
      subst hvs'
      exact hvac
  · intro m dob ver hdob hver hr ht hv
    exact greenpass_missing_rtv hdob hver hr ht hv

/-- C7 witness: the sample pass map selects its `r` array, and a map with
only `dob`/`ver` fails with the three-alternative missing-key error. -/
theorem c7_witness :
    recovery_entries [.map recMapCbor] = .ok gpRec.entries ∧
    GreenPass.tryFrom [("dob", .text "1998-02-26"), ("ver", .text "1.0.0")] =
      .error (.missingKey "r, t or v (the actual data)") :=
  ⟨c7_priority.1 gpMap gpRec [.map recMapCbor] rfl rfl,
   c7_priority.2.2.2 [("dob", .text "1998-02-26"), ("ver", .text "1.0.0")]
     "1998-02-26" "1.0.0" rfl rfl (by intro xs h; simp [slookup] at h)
     (by intro xs h; simp [slookup] at h) (by intro xs h; simp [slookup] at h)⟩

/-- C8: `TestName` selection attempts `nm` first (a present text value under
`nm` always yields `NAAT`), falls back to `ma` when `nm` is absent (yielding
`RAT`), and fails with the missing-key error naming both when the decode
reaches the selection and neither is present. -/
theorem c8_testname_selection :
    (∀ m t s, Test.tryFrom m = .ok t → slookup m "nm" = some (.text s) →
      t.name = .NAAT s) ∧
    (∀ m t d, Test.tryFrom m = .ok t → slookup m "nm" = none →
      slookup m "ma" = some (.text d) → t.name = .RAT d) ∧
    (∀ m ci sc co tg iss ts, slookup m "ci" = some (.text ci) →
      slookup m "sc" = some (.text sc) → parse_isodatetime sc = some ts →
      slookup m "co" = some (.text co) → slookup m "tg" = some (.text tg) →
      slookup m "is" = some (.text iss) → slookup m "nm" = none →
      slookup m "ma" = none →
      Test.tryFrom m = .error (.missingKey "ma or nm in test")) :=
  ⟨fun _ _ _ h hnm => test_ok_nm h hnm,
   fun _ _ _ h hnm hma => test_ok_rat h hnm hma,
   fun _ _ _ _ _ _ _ hci hsc hts hco htg his hnm hma =>
     test_missing_nm_ma hci hsc hts hco htg his hnm hma⟩

/-- C8 witness: the antigen sample (device id `"1232"`, no `nm`) decodes to
the `RAT` variant, and a map with neither `nm` nor `ma` fails with the
two-alternative missing-key error. -/
theorem c8_witness :
    testRAT.name = .RAT "1232" ∧
    Test.tryFrom testMapNoName = .error (.missingKey "ma or nm in test") :=
  ⟨c8_testname_selection.2.1 testMap1232 testRAT "1232" rfl rfl rfl,
   c8_testname_selection.2.2 testMapNoName "x"
     "2021-02-20T12:34:56+00:00" "AT" "840539006" "i"
     ⟨⟨2021, 2, 20⟩, 12, 34, 56, 0, 0⟩ rfl rfl rfl rfl rfl rfl rfl rfl⟩

end GP

namespace GP

/-- C9: envelope decoding rejects any top-level array whose length is not 4
with the malformed-envelope error; in the claims map, an absent key 1 still
yields success with no issuer (keys 4 and 6 being kept as UTC epoch
seconds), while an absent key 4, 6 or -260 each yields the corresponding
missing-key error, and a key -260 that is not a map yields the wrong-format
error for `hcert`. -/
theorem c9_envelope :
    (∀ (p : List Nat → Except Error IntMap) (cwt : List Value),
      cwt.length ≠ 4 → healthCertFromCwt p cwt = .err .malformedCWT) ∧
    (∀ t1 t2 : Int, chrono_min_ts ≤ t1 → t1 ≤ chrono_max_ts →
      chrono_min_ts ≤ t2 → t2 ≤ chrono_max_ts →
      healthCertFromClaims
          [((-260 : Int), Value.map []), (4, .integer t1), (6, .integer t2)] =
        .ok ⟨none, t2, t1, []⟩) ∧
    (∀ m, IssuerOk m → ilookup m 4 = none →
      healthCertFromClaims m = .err (.missingKey "expiration timestamp")) ∧
    (∀ m (t4 : Int), IssuerOk m → ilookup m 4 = some (.integer t4) →
      chrono_min_ts ≤ t4 → t4 ≤ chrono_max_ts → ilookup m 6 = none →
      healthCertFromClaims m = .err (.missingKey "issue timestamp")) ∧
    (∀ m (t4 t6 : Int), IssuerOk m → ilookup m 4 = some (.integer t4) →
      chrono_min_ts ≤ t4 → t4 ≤ chrono_max_ts →
      ilookup m 6 = some (.integer t6) →
      chrono_min_ts ≤ t6 → t6 ≤ chrono_max_ts → ilookup m (-260) = none →
      healthCertFromClaims m = .err (.missingKey "hcert")) ∧
    (∀ m (t4 t6 : Int) v, IssuerOk m → ilookup m 4 = some (.integer t4) →
      chrono_min_ts ≤ t4 → t4 ≤ chrono_max_ts →
      ilookup m 6 = some (.integer t6) →
      chrono_min_ts ≤ t6 → t6 ≤ chrono_max_ts →
      ilookup m (-260) = some v → (∀ kvs, v ≠ .map kvs) →
      healthCertFromClaims m = .err (.invalidFormatFor "hcert")) :=
  ⟨fun _ _ h => hc_cwt_len h,
   fun _ _ h1a h1b h2a h2b => hc_claims_no_issuer h1a h1b h2a h2b,
   fun _ h1 h4 => hc_missing_expires h1 h4,
   fun _ _ h1 h4 h4a h4b h6 => hc_missing_created h1 h4 h4a h4b h6,
   fun _ _ _ h1 h4 h4a h4b h6 h6a h6b hh =>
     hc_missing_hcert h1 h4 h4a h4b h6 h6a h6b hh,
   fun _ _ _ _ h1 h4 h4a h4b h6 h6a h6b hh hv =>
     hc_nonmap_hcert h1 h4 h4a h4b h6 h6a h6b hh hv⟩

/-- C9 witness: one concrete instantiation per conjunct. -/
theorem c9_witness :
    healthCertFromCwt (fun _ => .ok []) [] = .err .malformedCWT ∧
    healthCertFromClaims
        [((-260 : Int), Value.map []), (4, .integer 1656712477),
         (6, .integer 1625261082)] =
      .ok ⟨none, 1625261082, 1656712477, []⟩ ∧
    healthCertFromClaims [] = .err (.missingKey "expiration timestamp") ∧
    healthCertFromClaims [((4 : Int), .integer 0)] =
      .err (.missingKey "issue timestamp") ∧
    healthCertFromClaims [((4 : Int), .integer 0), (6, .integer 0)] =
      .err (.missingKey "hcert") ∧
    healthCertFromClaims
        [((-260 : Int), .integer 7), (4, .integer 0), (6, .integer 0)] =
      .err (.invalidFormatFor "hcert") :=
  ⟨c9_envelope.1 (fun _ => .ok []) [] (by decide),
   c9_envelope.2.1 1656712477 1625261082 (by decide) (by decide) (by decide)
     (by decide),
   c9_envelope.2.2.1 [] (Or.inl rfl) rfl,
   c9_envelope.2.2.2.1 [((4 : Int), .integer 0)] 0 (Or.inl rfl) rfl
     (by decide) (by decide) rfl,
   c9_envelope.2.2.2.2.1 [((4 : Int), .integer 0), (6, .integer 0)] 0 0
     (Or.inl rfl) rfl (by decide) (by decide) rfl (by decide) (by decide)
     rfl,
   c9_envelope.2.2.2.2.2
     [((-260 : Int), .integer 7), (4, .integer 0), (6, .integer 0)] 0 0
     (.integer 7) (Or.inl rfl) rfl (by decide) (by decide) rfl (by decide)
     (by decide) rfl (fun kvs h => Value.noConfusion h)⟩

/-- C10: a vaccine map whose `dn` and `sd` fields are CBOR integers and
whose other fields are valid decodes successfully for every pair of encoded
integers — including a dose-number greater than the dose-total and negative
encoded values — with both counts stored as the encoded integer reduced
modulo `2 ^ 64` (the `as usize` cast); no dose-number ≤ dose-total check is
performed. -/
theorem c10_vaccine_doses (m : StrMap)
    (cid co dts tg iss ma mp vp : String) (n s : Int) (d : NDate)
    (hci : slookup m "ci" = some (.text cid))
    (hco : slookup m "co" = some (.text co))
    (hdt : slookup m "dt" = some (.text dts))
    (htg : slookup m "tg" = some (.text tg))
    (hdn : slookup m "dn" = some (.integer n))
    (hsd : slookup m "sd" = some (.integer s))
    (his : slookup m "is" = some (.text iss))
    (hma : slookup m "ma" = some (.text ma))
    (hmp : slookup m "mp" = some (.text mp))
    (hvp : slookup m "vp" = some (.text vp))
    (hd : parse_naive_date dts = some d)
    (hcover : ∀ p ∈ m, p.1 ∈ vaccineKeys) :
    Vaccine.tryFrom m =
      .ok ⟨cid, co, d, tg, i128_to_usize n, i128_to_usize s, iss, ma, mp,
           vp⟩ :=
  vaccine_decodes hci hco hdt htg hdn hsd his hma hmp hvp hd hcover

/-- C10 witness: `dn = -1` and `sd = 2` still decode, the dose number
wrapping to `2 ^ 64 - 1`, far above the dose total. -/
theorem c10_witness :
    Vaccine.tryFrom vacMapNeg =
      .ok ⟨"URN:UVCI:01:AT:10807843F94AEE0EE5093FBC254BD813#B", "AT",
           ⟨2021, 2, 18⟩, "840539006", 18446744073709551615, 2,
           "Ministry of Health, Austria", "ORG-100030215", "EU/1/20/1528",
           "1119349007"⟩ :=
  c10_vaccine_doses vacMapNeg
    "URN:UVCI:01:AT:10807843F94AEE0EE5093FBC254BD813#B" "AT" "2021-02-18"
    "840539006" "Ministry of Health, Austria" "ORG-100030215" "EU/1/20/1528"
    "1119349007" (-1) 2 ⟨2021, 2, 18⟩ rfl rfl rfl rfl rfl rfl rfl rfl rfl
    rfl rfl (by decide)

end GP
